import Mathlib

set_option maxHeartbeats 1000000

/-!
Shallow embedding of src/mptrack/Undo.cpp (OpenMPT editor undo engines:
CPatternUndo, CSampleUndo, CInstrumentUndo).

Modelling conventions:
* Machine integers (SAMPLEINDEX, ROWINDEX, SmpLength, ...) are modelled as Nat;
  none of the verified paths rely on wrap-around.
* Raw byte buffers are modelled as List Nat; an owned undo payload
  (UndoInfo::samplePtr) is Option (List Nat), none standing for nullptr.
* Sample undo stacks keep the std::vector order: index 0 is the oldest entry,
  push_back appends at the end, pop_back drops the last element.
* Pattern undo stacks are kept most-recent-first: the vector's push_back is
  cons, back is head, pop_back is tail, and erasing the oldest entries from
  the front of the vector is dropping elements from the end of the list.
  This representation makes the linked-undo recursion structural.
* Allocation (ModSample::AllocateSample, std::vector::resize) is modelled as
  always succeeding; out-of-memory failure paths are therefore absent.
* Quantities configured outside the translation unit are parameters:
  MAX_SAMPLES, MAX_INSTRUMENTS, MAX_UNDO_LEVEL (Undo.h) and the
  TrackerSettings sample-undo byte budget.
* CModDoc::UpdateAllViews / SetModified are notification hooks with no
  payload; where a claim mentions them they are counted, otherwise dropped.
-/

/-- Sample undo change kinds, mirroring the sampleUndoTypes enumeration of Undo.h. -/
inductive SampleUndoType where
  | sundo_none
  | sundo_invert
  | sundo_reverse
  | sundo_unsign
  | sundo_insert
  | sundo_update
  | sundo_delete
  | sundo_replace
deriving DecidableEq, Repr

/-- Per-sample header plus audio data (the fields of ModSample that Undo.cpp
reads or writes; all remaining header fields are folded into headerRest). -/
structure ModSample where
  nLength : Nat
  bytesPerSample : Nat
  data : List Nat
  keepOnDisk : Bool
  modified : Bool
  headerRest : Nat
deriving DecidableEq, Repr

instance : Inhabited ModSample := ⟨⟨0, 0, [], false, false, 0⟩⟩

/-- CSampleUndo::UndoInfo. -/
structure SampleUndoInfo where
  OldSample : ModSample
  oldName : String
  changeType : SampleUndoType
  description : String
  changeStart : Nat
  changeEnd : Nat
  samplePtr : Option (List Nat)
deriving DecidableEq, Repr

/-- The part of CSoundFile the sample undo engine touches: the 1-based sample
array and the 1-based sample name array (index 0 unused). -/
structure SmpSoundFile where
  samples : List ModSample
  names : List String
deriving DecidableEq, Repr

def getSample (sf : SmpSoundFile) (smp : Nat) : ModSample := sf.samples.getD smp default

def getSampleName (sf : SmpSoundFile) (smp : Nat) : String := sf.names.getD smp ""

def setSample (sf : SmpSoundFile) (smp : Nat) (s : ModSample) : SmpSoundFile :=
  { sf with samples := sf.samples.set smp s }

def setSampleName (sf : SmpSoundFile) (smp : Nat) (n : String) : SmpSoundFile :=
  { sf with names := sf.names.set smp n }

/-- One undo (or redo) buffer: a stack of records per sample slot,
slot for sample smp at index smp - 1, oldest record first. -/
abbrev SampleBuf := List (List SampleUndoInfo)

/-- The two stacks owned by CSampleUndo. -/
structure SampleUndoSys where
  ub : SampleBuf
  rb : SampleBuf
deriving DecidableEq, Repr

def getSlot (buf : SampleBuf) (smp : Nat) : List SampleUndoInfo := buf.getD (smp - 1) []

/-- Bytes a single record contributes to the shared budget
(GetBufferCapacity counts (changeEnd - changeStart) * bytes per sample
for every record holding a buffer). -/
def stepContrib (st : SampleUndoInfo) : Nat :=
  if st.samplePtr.isSome then (st.changeEnd - st.changeStart) * st.OldSample.bytesPerSample else 0

def slotCapacity (slot : List SampleUndoInfo) : Nat := (slot.map stepContrib).sum

/-- CSampleUndo::GetBufferCapacity. -/
def getBufferCapacity (buffer : SampleBuf) : Nat := (buffer.map slotCapacity).sum

/-- Number of buffer-bearing records (used as eviction fuel). -/
def ptrCountSlot (slot : List SampleUndoInfo) : Nat :=
  (slot.filter (fun st => st.samplePtr.isSome)).length

def ptrCount (buffer : SampleBuf) : Nat := (buffer.map ptrCountSlot).sum

/-- The inner loop of CSampleUndo::RestrictBufferSize(buffer, capacity) for one
slot: find the first record holding a buffer; delete it together with every
older record of the slot, returning its byte contribution and the rest. -/
def dropThroughFirstPtr : List SampleUndoInfo → Option (Nat × List SampleUndoInfo)
  | [] => none
  | st :: rest =>
    if st.samplePtr.isSome then
      some ((st.changeEnd - st.changeStart) * st.OldSample.bytesPerSample, rest)
    else dropThroughFirstPtr rest

/-- One sweep of CSampleUndo::RestrictBufferSize(buffer, capacity) over the
sample slots: stops as soon as capacity fits the budget, otherwise removes the
oldest buffer-bearing record (and everything older) of each slot in turn. -/
def restrictPass (budget : Nat) : SampleBuf → Nat → SampleBuf × Nat
  | [], cap => ([], cap)
  | slot :: rest, cap =>
    if cap ≤ budget then (slot :: rest, cap)
    else
      match dropThroughFirstPtr slot with
      | none =>
        let r := restrictPass budget rest cap
        (slot :: r.1, r.2)
      | some (b, slot2) =>
        let r := restrictPass budget rest (cap - b)
        (slot2 :: r.1, r.2)

/-- The while loop of CSampleUndo::RestrictBufferSize(): alternate sweeps over
the undo and the redo buffer until the tracked capacity fits the budget.
The fuel argument bounds the iterations; with fuel equal to the number of
buffer-bearing records it is never exhausted (each productive iteration
deletes at least one such record). -/
def restrictLoop (budget : Nat) : Nat → SampleBuf → SampleBuf → Nat → SampleBuf × SampleBuf × Nat
  | 0, ub, rb, cap => (ub, rb, cap)
  | fuel + 1, ub, rb, cap =>
    if cap ≤ budget then (ub, rb, cap)
    else
      let ru := restrictPass budget ub cap
      let rr := restrictPass budget rb ru.2
      restrictLoop budget fuel ru.1 rr.1 rr.2

/-- CSampleUndo::RestrictBufferSize(): recompute the summed capacity of both
stacks and evict until it fits the configured budget. -/
def restrictBufferSize (budget : Nat) (ub rb : SampleBuf) : SampleBuf × SampleBuf :=
  let cap := getBufferCapacity ub + getBufferCapacity rb
  let r := restrictLoop budget (ptrCount ub + ptrCount rb) ub rb cap
  (r.1, r.2.1)

/-! Lemmas about the eviction machinery. -/

@[simp] theorem slotCapacity_nil : slotCapacity [] = 0 := rfl

@[simp] theorem slotCapacity_cons (st : SampleUndoInfo) (rest : List SampleUndoInfo) :
    slotCapacity (st :: rest) = stepContrib st + slotCapacity rest := by
  simp [slotCapacity]

@[simp] theorem getBufferCapacity_nil : getBufferCapacity [] = 0 := rfl

@[simp] theorem getBufferCapacity_cons (slot : List SampleUndoInfo) (rest : SampleBuf) :
    getBufferCapacity (slot :: rest) = slotCapacity slot + getBufferCapacity rest := by
  simp [getBufferCapacity]

@[simp] theorem ptrCountSlot_nil : ptrCountSlot [] = 0 := rfl

@[simp] theorem ptrCountSlot_cons (st : SampleUndoInfo) (rest : List SampleUndoInfo) :
    ptrCountSlot (st :: rest) =
      (if st.samplePtr.isSome then 1 else 0) + ptrCountSlot rest := by
  by_cases hp : st.samplePtr.isSome
  · simp [ptrCountSlot, hp, List.filter]
    omega
  · simp [ptrCountSlot, hp, List.filter]

@[simp] theorem ptrCount_nil : ptrCount [] = 0 := rfl

@[simp] theorem ptrCount_cons (slot : List SampleUndoInfo) (rest : SampleBuf) :
    ptrCount (slot :: rest) = ptrCountSlot slot + ptrCount rest := by
  simp [ptrCount]

theorem dropThroughFirstPtr_none_cap (slot : List SampleUndoInfo)
    (h : dropThroughFirstPtr slot = none) : slotCapacity slot = 0 := by
  induction slot with
  | nil => rfl
  | cons st rest ih =>
    unfold dropThroughFirstPtr at h
    by_cases hp : st.samplePtr.isSome
    · simp [hp] at h
    · simp only [hp, if_false] at h
      simp [stepContrib, hp, ih h]

theorem dropThroughFirstPtr_none_ptr (slot : List SampleUndoInfo)
    (h : dropThroughFirstPtr slot = none) : ptrCountSlot slot = 0 := by
  induction slot with
  | nil => rfl
  | cons st rest ih =>
    unfold dropThroughFirstPtr at h
    by_cases hp : st.samplePtr.isSome
    · simp [hp] at h
    · simp only [hp, if_false] at h
      simp [hp, ih h]

theorem dropThroughFirstPtr_some_cap (slot : List SampleUndoInfo) (b : Nat)
    (slot2 : List SampleUndoInfo) (h : dropThroughFirstPtr slot = some (b, slot2)) :
    slotCapacity slot = b + slotCapacity slot2 := by
  induction slot with
  | nil => simp [dropThroughFirstPtr] at h
  | cons st rest ih =>
    unfold dropThroughFirstPtr at h
    by_cases hp : st.samplePtr.isSome
    · simp [hp] at h
      simp [stepContrib, hp, h.1, h.2]
    · simp only [hp, if_false] at h
      simp [stepContrib, hp, ih h]

theorem dropThroughFirstPtr_some_ptr (slot : List SampleUndoInfo) (b : Nat)
    (slot2 : List SampleUndoInfo) (h : dropThroughFirstPtr slot = some (b, slot2)) :
    ptrCountSlot slot = ptrCountSlot slot2 + 1 := by
  induction slot with
  | nil => simp [dropThroughFirstPtr] at h
  | cons st rest ih =>
    unfold dropThroughFirstPtr at h
    by_cases hp : st.samplePtr.isSome
    · simp [hp] at h
      simp [hp, h.2, Nat.add_comm]
    · simp only [hp, if_false] at h
      simp [hp, ih h]

theorem ptrCountSlot_zero_cap (slot : List SampleUndoInfo)
    (h : ptrCountSlot slot = 0) : slotCapacity slot = 0 := by
  induction slot with
  | nil => rfl
  | cons st rest ih =>
    by_cases hp : st.samplePtr.isSome
    · simp [hp] at h
    · simp [hp] at h
      simp [stepContrib, hp, ih h]

theorem ptrCount_zero_cap (buf : SampleBuf) (h : ptrCount buf = 0) :
    getBufferCapacity buf = 0 := by
  induction buf with
  | nil => rfl
  | cons slot rest ih =>
    simp at h
    simp [ptrCountSlot_zero_cap slot h.1, ih h.2]

theorem ptrCountSlot_zero_dtfp (slot : List SampleUndoInfo)
    (h : ptrCountSlot slot = 0) : dropThroughFirstPtr slot = none := by
  induction slot with
  | nil => rfl
  | cons st rest ih =>
    by_cases hp : st.samplePtr.isSome
    · simp [hp] at h
    · simp [hp] at h
      simp [dropThroughFirstPtr, hp, ih h]

/-- A sweep keeps the tracked capacity consistent with the true summed
capacity (R is the contribution of everything outside the swept buffer). -/
theorem restrictPass_cap (budget : Nat) (bufs : SampleBuf) :
    ∀ cap R, cap = getBufferCapacity bufs + R →
      (restrictPass budget bufs cap).2 = getBufferCapacity (restrictPass budget bufs cap).1 + R := by
  induction bufs with
  | nil => intro cap R h; simpa [restrictPass] using h
  | cons slot rest ih =>
    intro cap R h
    unfold restrictPass
    by_cases hc : cap ≤ budget
    · simpa [hc] using h
    · simp only [hc, if_false]
      rcases hd : dropThroughFirstPtr slot with _ | ⟨b, slot2⟩
      · have hcap : slotCapacity slot = 0 := dropThroughFirstPtr_none_cap slot hd
        have h2 : cap = getBufferCapacity rest + R := by
          simp [hcap] at h; omega
        have := ih cap R h2
        simpa [hcap] using this
      · have hcap : slotCapacity slot = b + slotCapacity slot2 :=
          dropThroughFirstPtr_some_cap slot b slot2 hd
        have h2 : cap - b = getBufferCapacity rest + (slotCapacity slot2 + R) := by
          simp [hcap] at h; omega
        have := ih (cap - b) (slotCapacity slot2 + R) h2
        simp only [getBufferCapacity_cons]
        omega

/-- A sweep never increases the number of buffer-bearing records. -/
theorem restrictPass_ptr_mono (budget : Nat) (bufs : SampleBuf) :
    ∀ cap, ptrCount (restrictPass budget bufs cap).1 ≤ ptrCount bufs := by
  induction bufs with
  | nil => intro cap; simp [restrictPass]
  | cons slot rest ih =>
    intro cap
    unfold restrictPass
    by_cases hc : cap ≤ budget
    · simp [hc]
    · simp only [hc, if_false]
      rcases hd : dropThroughFirstPtr slot with _ | ⟨b, slot2⟩
      · have := ih cap
        simp only [ptrCount_cons]
        omega
      · have h1 := dropThroughFirstPtr_some_ptr slot b slot2 hd
        have h2 := ih (cap - b)
        simp only [ptrCount_cons]
        omega

/-- A sweep that starts over budget on a buffer holding at least one
buffer-bearing record deletes at least one of them. -/
theorem restrictPass_ptr_strict (budget : Nat) (bufs : SampleBuf) :
    ∀ cap, ¬ cap ≤ budget → 0 < ptrCount bufs →
      ptrCount (restrictPass budget bufs cap).1 < ptrCount bufs := by
  induction bufs with
  | nil => intro cap _ h; simp at h
  | cons slot rest ih =>
    intro cap hc hpos
    unfold restrictPass
    simp only [hc, if_false]
    rcases hd : dropThroughFirstPtr slot with _ | ⟨b, slot2⟩
    · have hz : ptrCountSlot slot = 0 := dropThroughFirstPtr_none_ptr slot hd
      have hrest : 0 < ptrCount rest := by
        simp [hz] at hpos; omega
      have := ih cap hc hrest
      simp only [ptrCount_cons, hz]
      omega
    · have h1 := dropThroughFirstPtr_some_ptr slot b slot2 hd
      have h2 := restrictPass_ptr_mono budget rest (cap - b)
      simp only [ptrCount_cons]
      omega

/-- A buffer with no buffer-bearing record is untouched by a sweep. -/
theorem restrictPass_no_ptr (budget : Nat) (bufs : SampleBuf)
    (h : ptrCount bufs = 0) : ∀ cap, restrictPass budget bufs cap = (bufs, cap) := by
  induction bufs with
  | nil => intro cap; rfl
  | cons slot rest ih =>
    intro cap
    have hz : ptrCountSlot slot = 0 := by
      simp at h; omega
    have hr : ptrCount rest = 0 := by
      simp at h; omega
    unfold restrictPass
    by_cases hc : cap ≤ budget
    · simp [hc]
    · simp [hc, ptrCountSlot_zero_dtfp slot hz, ih hr cap]

/-- The eviction loop, run with enough fuel and an accurate capacity,
terminates with the tracked capacity both accurate and within budget. -/
theorem restrictLoop_correct (budget : Nat) :
    ∀ fuel ub rb cap,
      cap = getBufferCapacity ub + getBufferCapacity rb →
      ptrCount ub + ptrCount rb ≤ fuel →
      (restrictLoop budget fuel ub rb cap).2.2 =
          getBufferCapacity (restrictLoop budget fuel ub rb cap).1 +
          getBufferCapacity (restrictLoop budget fuel ub rb cap).2.1 ∧
        (restrictLoop budget fuel ub rb cap).2.2 ≤ budget := by
  intro fuel
  induction fuel with
  | zero =>
    intro ub rb cap hcap hfuel
    have hu : ptrCount ub = 0 := by omega
    have hr : ptrCount rb = 0 := by omega
    have hz : cap = 0 := by
      rw [hcap, ptrCount_zero_cap ub hu, ptrCount_zero_cap rb hr]
    simp only [restrictLoop]
    exact ⟨hcap, by omega⟩
  | succ fuel ih =>
    intro ub rb cap hcap hfuel
    unfold restrictLoop
    by_cases hc : cap ≤ budget
    · simp only [hc, if_true]
      exact ⟨hcap, trivial⟩
    · simp only [hc, if_false]
      have hu := restrictPass_cap budget ub cap (getBufferCapacity rb) hcap
      set ru := restrictPass budget ub cap with hru
      have hr := restrictPass_cap budget rb ru.2 (getBufferCapacity ru.1)
        (by rw [hu]; omega)
      set rr := restrictPass budget rb ru.2 with hrr
      have hcap2 : rr.2 = getBufferCapacity ru.1 + getBufferCapacity rr.1 := by
        rw [hr]; omega
      have hdec : ptrCount ru.1 + ptrCount rr.1 < ptrCount ub + ptrCount rb := by
        by_cases hpu : 0 < ptrCount ub
        · have h1 : ptrCount ru.1 < ptrCount ub := restrictPass_ptr_strict budget ub cap hc hpu
          have h2 : ptrCount rr.1 ≤ ptrCount rb := restrictPass_ptr_mono budget rb ru.2
          omega
        · have hz : ptrCount ub = 0 := by omega
          have hcu : getBufferCapacity ub = 0 := ptrCount_zero_cap ub hz
          have hfix : ru = (ub, cap) := by
            rw [hru]; exact restrictPass_no_ptr budget ub hz cap
          have hposr : 0 < ptrCount rb := by
            by_contra hpz
            have hzr : ptrCount rb = 0 := by omega
            have := ptrCount_zero_cap rb hzr
            omega
          have h1 : ptrCount rr.1 < ptrCount rb := by
            have : ¬ ru.2 ≤ budget := by rw [hfix]; exact hc
            exact restrictPass_ptr_strict budget rb ru.2 this hposr
          have h2 : ptrCount ru.1 ≤ ptrCount ub := by rw [hfix]
          omega
      exact ih ru.1 rr.1 rr.2 hcap2 (by omega)

/-- After RestrictBufferSize, the summed owned-buffer bytes of both stacks fit
within the configured budget. -/
theorem restrictBufferSize_le (budget : Nat) (ub rb : SampleBuf) :
    getBufferCapacity (restrictBufferSize budget ub rb).1 +
      getBufferCapacity (restrictBufferSize budget ub rb).2 ≤ budget := by
  have hdef : restrictBufferSize budget ub rb =
      ((restrictLoop budget (ptrCount ub + ptrCount rb) ub rb
          (getBufferCapacity ub + getBufferCapacity rb)).1,
        (restrictLoop budget (ptrCount ub + ptrCount rb) ub rb
          (getBufferCapacity ub + getBufferCapacity rb)).2.1) := rfl
  rw [hdef]
  dsimp only
  have h := restrictLoop_correct budget (ptrCount ub + ptrCount rb) ub rb
    (getBufferCapacity ub + getBufferCapacity rb) rfl (le_refl _)
  omega

/-! The sample engine operations. -/

/-- CSampleUndo::SampleBufferExists. -/
def sampleBufferExists (buffer : SampleBuf) (maxSamples smp : Nat) : Bool :=
  if smp = 0 ∨ maxSamples ≤ smp then false
  else if smp ≤ buffer.length then true
  else false

/-- The eviction loop at the top of CSampleUndo::PrepareBuffer: while the
slot holds MAX_UNDO_LEVEL or more records, delete its oldest record.
Leaves min(length, cap - 1) newest records. -/
def trimToCap (cap : Nat) (slot : List SampleUndoInfo) : List SampleUndoInfo :=
  if slot.length + 1 ≤ cap then slot else slot.drop (slot.length + 1 - cap)

/-- The range forcing of CSampleUndo::PrepareBuffer: sundo_replace snapshots
the whole current sample, sundo_none an empty range; all other kinds keep the
caller's range. -/
def forcedRange (changeType : SampleUndoType) (oldLen changeStart changeEnd : Nat) : Nat × Nat :=
  if changeType = SampleUndoType.sundo_replace then (0, oldLen)
  else if changeType = SampleUndoType.sundo_none then (0, 0)
  else (changeStart, changeEnd)

/-- The buffer.resize(smp) step of CSampleUndo::PrepareBuffer: grow the outer
slot array so that sample smp has a slot. -/
def growBuf (smp : Nat) (buf : SampleBuf) : SampleBuf :=
  if buf.length < smp then buf ++ List.replicate (smp - buf.length) [] else buf

/-- The per-sample entry-cap eviction step of CSampleUndo::PrepareBuffer:
grow the slot array, then delete the slot's oldest records while it holds
MAX_UNDO_LEVEL or more. -/
def capTrimBuf (maxUndoLevel smp : Nat) (buf : SampleBuf) : SampleBuf :=
  (growBuf smp buf).set (smp - 1) (trimToCap maxUndoLevel (getSlot (growBuf smp buf) smp))

/-- The snapshot record CSampleUndo::PrepareBuffer builds: the saved header
and name, the (already forced) change range, and the owned payload copied for
update/delete/replace when the sample has data. -/
def mkSampleUndoRecord (sf : SmpSoundFile) (smp : Nat) (changeType : SampleUndoType)
    (description : String) (fr : Nat × Nat) : SampleUndoInfo :=
  let oldSample := getSample sf smp
  let samplePtr : Option (List Nat) :=
    match changeType with
    | SampleUndoType.sundo_update | SampleUndoType.sundo_delete
    | SampleUndoType.sundo_replace =>
      if oldSample.data.isEmpty then none
      else some ((oldSample.data.drop (fr.1 * oldSample.bytesPerSample)).take
        ((fr.2 - fr.1) * oldSample.bytesPerSample))
    | _ => none
  ⟨oldSample, getSampleName sf smp, changeType, description, fr.1, fr.2, samplePtr⟩

/-- push_back of a record onto the slot of sample smp. -/
def pushSlot (buf : SampleBuf) (smp : Nat) (u : SampleUndoInfo) : SampleBuf :=
  buf.set (smp - 1) (getSlot buf smp ++ [u])

/-- CSampleUndo::PrepareBuffer. Returns the success flag together with the
resulting pair of stacks (on some failure paths the stacks have already been
mutated, exactly as in the source). The target stack is the undo buffer when
toUndo is true, otherwise the redo buffer. Buffer allocation is modelled as
always succeeding. -/
def samplePrepareBuffer (maxSamples maxUndoLevel budget : Nat) (sf : SmpSoundFile)
    (sys : SampleUndoSys) (toUndo : Bool) (smp : Nat) (changeType : SampleUndoType)
    (description : String) (changeStart changeEnd : Nat) : Bool × SampleUndoSys :=
  if smp = 0 ∨ maxSamples ≤ smp then (false, sys)
  else if budget = 0 then (false, sys)
  else
    let buf2 := capTrimBuf maxUndoLevel smp (if toUndo then sys.ub else sys.rb)
    let sys1 : SampleUndoSys := if toUndo then ⟨buf2, sys.rb⟩ else ⟨sys.ub, buf2⟩
    let fr := forcedRange changeType (getSample sf smp).nLength changeStart changeEnd
    if (getSample sf smp).nLength < fr.1 ∨ fr.2 < fr.1 then (false, sys1)
    else
      let rr := restrictBufferSize budget sys1.ub sys1.rb
      let undo := mkSampleUndoRecord sf smp changeType description fr
      (true, if toUndo then ⟨pushSlot rr.1 smp undo, rr.2⟩ else ⟨rr.1, pushSlot rr.2 smp undo⟩)

/-- CSampleUndo::ClearUndo(buffer, smp): delete every record of the slot. -/
def clearUndoSlot (maxSamples : Nat) (buffer : SampleBuf) (smp : Nat) : SampleBuf :=
  if sampleBufferExists buffer maxSamples smp then buffer.set (smp - 1) [] else buffer

/-- CSampleUndo::PrepareUndo: capture into the undo stack and, on success,
clear the redo stack of that sample. -/
def samplePrepareUndo (maxSamples maxUndoLevel budget : Nat) (sf : SmpSoundFile)
    (sys : SampleUndoSys) (smp : Nat) (changeType : SampleUndoType)
    (description : String) (changeStart changeEnd : Nat) : Bool × SampleUndoSys :=
  let r := samplePrepareBuffer maxSamples maxUndoLevel budget sf sys true smp changeType
    description changeStart changeEnd
  if r.1 then (true, ⟨r.2.ub, clearUndoSlot maxSamples r.2.rb smp⟩) else (false, r.2)

/-- Overwrite a segment of a byte list starting at the given offset (the
memcpy / std::copy pattern; writes past the end are dropped, matching the
in-bounds uses of the source). -/
def writeSeq (dst : List Nat) (start : Nat) (src : List Nat) : List Nat :=
  match src with
  | [] => dst
  | b :: rest => writeSeq (dst.set start b) (start + 1) rest

/-- Modelled from the spec: ctrlSmp::InvertSample (modsmp_ctrl, outside src/)
re-applies the self-inverse invert transform on the given frame range;
byte-level stand-in. -/
def invertRange (bps cs ce : Nat) (data : List Nat) : List Nat :=
  data.mapIdx (fun i b => if cs * bps ≤ i ∧ i < ce * bps then 255 - b else b)

/-- Modelled from the spec: ctrlSmp::ReverseSample (modsmp_ctrl, outside src/)
reverses the given frame range; byte-level stand-in. -/
def reverseRange (bps cs ce : Nat) (data : List Nat) : List Nat :=
  data.take (cs * bps) ++ ((data.drop (cs * bps)).take ((ce - cs) * bps)).reverse ++
    data.drop (ce * bps)

/-- Modelled from the spec: ctrlSmp::UnsignSample (modsmp_ctrl, outside src/)
toggles signedness on the given frame range; byte-level stand-in. -/
def unsignRange (bps cs ce : Nat) (data : List Nat) : List Nat :=
  data.mapIdx (fun i b => if cs * bps ≤ i ∧ i < ce * bps then (b + 128) % 256 else b)

/-- CSampleUndo::Undo(fromBuf, toBuf, smp). fromUndo selects the direction:
true is Undo (fromBuf is the undo stack), false is Redo. Returns the success
flag, the updated document and the updated stacks. -/
def sampleUndoStep (maxSamples maxUndoLevel budget : Nat) (sf : SmpSoundFile)
    (sys : SampleUndoSys) (fromUndo : Bool) (smp : Nat) : Bool × SmpSoundFile × SampleUndoSys :=
  let fromBuf := if fromUndo then sys.ub else sys.rb
  if !(sampleBufferExists fromBuf maxSamples smp) || (getSlot fromBuf smp).isEmpty then
    (false, sf, sys)
  else
    match (getSlot fromBuf smp).getLast? with
    | none => (false, sf, sys)
    | some undo =>
      -- pop the record before the mirror capture, so that RestrictBufferSize
      -- inside PrepareBuffer cannot delete it
      let fromBuf1 := fromBuf.set (smp - 1) (getSlot fromBuf smp).dropLast
      let sys1 : SampleUndoSys := if fromUndo then ⟨fromBuf1, sys.rb⟩ else ⟨sys.ub, fromBuf1⟩
      -- opposite change kind for the mirror record
      let redoType :=
        if undo.changeType = SampleUndoType.sundo_delete then SampleUndoType.sundo_insert
        else if undo.changeType = SampleUndoType.sundo_insert then SampleUndoType.sundo_delete
        else undo.changeType
      let sys2 := (samplePrepareBuffer maxSamples maxUndoLevel budget sf sys1 (!fromUndo) smp
        redoType undo.description undo.changeStart undo.changeEnd).2
      let sample := getSample sf smp
      let keepOnDisk := sample.keepOnDisk
      let bps := undo.OldSample.bytesPerSample
      let changeLen := undo.changeEnd - undo.changeStart
      -- restore by change kind: current in-place data, optional new buffer,
      -- replace flag; none signals the mid-restore failure returns
      let restored : Option (List Nat × Option (List Nat) × Bool) :=
        match undo.changeType with
        | SampleUndoType.sundo_none => some (sample.data, none, false)
        | SampleUndoType.sundo_invert =>
          some (invertRange bps undo.changeStart undo.changeEnd sample.data, none, false)
        | SampleUndoType.sundo_reverse =>
          some (reverseRange bps undo.changeStart undo.changeEnd sample.data, none, false)
        | SampleUndoType.sundo_unsign =>
          some (unsignRange bps undo.changeStart undo.changeEnd sample.data, none, false)
        | SampleUndoType.sundo_insert =>
          let d1 := writeSeq sample.data (undo.changeStart * bps)
            ((sample.data.drop (undo.changeEnd * bps)).take ((sample.nLength - undo.changeEnd) * bps))
          some (writeSeq d1 (undo.OldSample.nLength * bps)
            (List.replicate ((sample.nLength - undo.OldSample.nLength) * bps) 0), none, false)
        | SampleUndoType.sundo_update =>
          if sample.nLength < undo.changeEnd then none
          else some (writeSeq sample.data (undo.changeStart * bps)
            ((undo.samplePtr.getD []).take (changeLen * bps)), none, false)
        | SampleUndoType.sundo_delete =>
          some (sample.data, some (sample.data.take (undo.changeStart * bps) ++
            (undo.samplePtr.getD []).take (changeLen * bps) ++
            (sample.data.drop (undo.changeStart * bps)).take
              ((undo.OldSample.nLength - undo.changeEnd) * bps)), true)
        | SampleUndoType.sundo_replace => some (sample.data, some (undo.samplePtr.getD []), true)
      match restored with
      | none => (false, sf, sys2)
      | some r3 =>
        -- the replace record hands its buffer to the sample and clears its pointer
        let undo2 := if undo.changeType = SampleUndoType.sundo_replace then
            { undo with samplePtr := none } else undo
        -- restore the old sample header, keeping the live data pointer
        let s1 : ModSample := { undo.OldSample with data := r3.1 }
        -- ctrlSmp::ReplaceSample installs the new buffer (modelled from the
        -- spec; defined in modsmp_ctrl, outside src/)
        let s2 := if r3.2.2 then
            { s1 with data := (r3.2.1).getD [], nLength := undo.OldSample.nLength }
          else s1
        let s3 := if undo.changeType ≠ SampleUndoType.sundo_none then
            { s2 with modified := true } else s2
        -- never re-enable the keep-on-disk flag after it was disabled
        let s4 := if !keepOnDisk then { s3 with keepOnDisk := false } else s3
        let sf2 := setSampleName (setSample sf smp s4) smp undo.oldName
        -- push the consumed record back and delete it again, freeing its buffer
        let fb := if fromUndo then sys2.ub else sys2.rb
        let fb2 := fb.set (smp - 1) (getSlot fb smp ++ [undo2])
        let fb3 := fb2.set (smp - 1) (getSlot fb2 smp).dropLast
        let sys3 : SampleUndoSys := if fromUndo then ⟨fb3, sys2.rb⟩ else ⟨sys2.ub, fb3⟩
        (true, sf2, sys3)

/-- CSampleUndo::Undo(smp). -/
def sampleUndo (maxSamples maxUndoLevel budget : Nat) (sf : SmpSoundFile)
    (sys : SampleUndoSys) (smp : Nat) : Bool × SmpSoundFile × SampleUndoSys :=
  sampleUndoStep maxSamples maxUndoLevel budget sf sys true smp

/-- CSampleUndo::Redo(smp). -/
def sampleRedo (maxSamples maxUndoLevel budget : Nat) (sf : SmpSoundFile)
    (sys : SampleUndoSys) (smp : Nat) : Bool × SmpSoundFile × SampleUndoSys :=
  sampleUndoStep maxSamples maxUndoLevel budget sf sys false smp

/-! The pattern engine. -/

/-- A pattern grid cell (ModCommand); its internal fields are irrelevant to
the undo engine, which only copies cells around. -/
abbrev ModCommand := Nat

/-- Per-channel settings record (ChnSettings); opaque to the undo engine. -/
abbrev ChnSetting := Nat

/-- A pattern: its row count and its cells, row-major, one row holding one
cell per document channel. -/
structure CPattern where
  numRows : Nat
  cells : List ModCommand
deriving DecidableEq, Repr

/-- The part of CSoundFile the pattern undo engine touches. -/
structure PatSoundFile where
  numChannels : Nat
  chnSettings : List ChnSetting
  patterns : List (Option CPattern)
deriving DecidableEq, Repr

def getPattern (sf : PatSoundFile) (p : Nat) : Option CPattern := sf.patterns.getD p none

/-- CSoundFile::Patterns.IsValidPat. -/
def isValidPat (sf : PatSoundFile) (p : Nat) : Bool := (getPattern sf p).isSome

def setPattern (sf : PatSoundFile) (p : Nat) (pat : CPattern) : PatSoundFile :=
  { sf with patterns := sf.patterns.set p (some pat) }

/-- CPatternUndo::UndoInfo. An empty channelInfo plays the role of the
"no channel info stored" state. -/
structure PatternUndoInfo where
  pattern : Nat
  numPatternRows : Nat
  firstChannel : Nat
  firstRow : Nat
  numChannels : Nat
  numRows : Nat
  content : List ModCommand
  channelInfo : List ChnSetting
  linkToPrevious : Bool
  description : String
deriving DecidableEq, Repr

/-- The cell-by-cell rectangle copy loop of CPatternUndo::PrepareBuffer:
row iy contributes the numChns cells starting at GetpModCommand(firstRow + iy,
firstChn). -/
def readRect (numChannels : Nat) (cells : List ModCommand)
    (firstRow firstChn numRows numChns : Nat) : List ModCommand :=
  ((List.range numRows).map
    (fun iy => (cells.drop ((firstRow + iy) * numChannels + firstChn)).take numChns)).join

/-- CPatternUndo::PrepareBuffer. Returns none on a validation failure (the
caller's buffer is then untouched), or the buffer with the new record pushed.
Allocation of the cell snapshot is modelled as always succeeding. -/
def patternPrepareBuffer (maxUndoLevel : Nat) (sf : PatSoundFile)
    (buffer : List PatternUndoInfo) (pattern firstChn firstRow numChns numRows : Nat)
    (description : String) (linkToPrevious storeChannelInfo : Bool) :
    Option (List PatternUndoInfo) :=
  match getPattern sf pattern with
  | none => none
  | some pat =>
    if pat.numRows ≤ firstRow ∨ numChns < 1 ∨ numRows < 1 ∨ sf.numChannels ≤ firstChn then
      none
    else
      let nRows := pat.numRows
      let numRows2 := if nRows ≤ firstRow + numRows then nRows - firstRow else numRows
      let numChns2 := if sf.numChannels ≤ firstChn + numChns then sf.numChannels - firstChn
        else numChns
      let buffer2 := if maxUndoLevel ≤ buffer.length then buffer.take (maxUndoLevel - 1)
        else buffer
      some ({ pattern := pattern, numPatternRows := nRows, firstChannel := firstChn,
              firstRow := firstRow, numChannels := numChns2, numRows := numRows2,
              content := readRect sf.numChannels pat.cells firstRow firstChn numRows2 numChns2,
              channelInfo := if storeChannelInfo then sf.chnSettings else [],
              linkToPrevious := linkToPrevious, description := description } :: buffer2)

/-- CPatternUndo::PrepareUndo: push onto the undo stack and, on success,
clear the redo stack. -/
def patternPrepareUndo (maxUndoLevel : Nat) (sf : PatSoundFile)
    (ub rb : List PatternUndoInfo) (pattern firstChn firstRow numChns numRows : Nat)
    (description : String) (linkToPrevious storeChannelInfo : Bool) :
    Bool × List PatternUndoInfo × List PatternUndoInfo :=
  match patternPrepareBuffer maxUndoLevel sf ub pattern firstChn firstRow numChns numRows
    description linkToPrevious storeChannelInfo with
  | some ub2 => (true, ub2, [])
  | none => (false, ub, rb)

/-- Modelled from the spec: CModDoc::ReArrangeChannels (moddoc, outside src/)
rebuilds the document with one channel per entry of the mapping; entry
some i takes over old channel i's settings and pattern columns, none yields a
fresh blank channel. -/
def reArrangeChannels (sf : PatSoundFile) (channels : List (Option Nat)) : PatSoundFile :=
  { numChannels := channels.length,
    chnSettings := channels.map (fun c => match c with
      | some i => sf.chnSettings.getD i 0
      | none => 0),
    patterns := sf.patterns.map (fun op => op.map (fun pat =>
      { numRows := pat.numRows,
        cells := ((List.range pat.numRows).map (fun r =>
          channels.map (fun c => match c with
            | some i => pat.cells.getD (r * sf.numChannels + i) 0
            | none => 0))).join })) }

/-- Modelled from the spec: CPattern::Resize (soundlib, outside src/) keeps
the existing rows and pads any new rows with blank cells. -/
def resizePattern (numChannels : Nat) (pat : CPattern) (newRows : Nat) : CPattern :=
  { numRows := newRows,
    cells := pat.cells.take (newRows * numChannels) ++
      List.replicate (newRows * numChannels - pat.cells.length) 0 }

/-- Modelled from the spec: CSoundFile::Patterns.Insert (soundlib, outside
src/) creates pattern p with the given row count and blank cells. -/
def patternsInsert (sf : PatSoundFile) (p rows : Nat) : PatSoundFile :=
  let ps := if sf.patterns.length ≤ p then
      sf.patterns ++ List.replicate (p + 1 - sf.patterns.length) none
    else sf.patterns
  { sf with patterns := ps.set p (some ⟨rows, List.replicate (rows * sf.numChannels) 0⟩) }

/-- The restore copy loop of CPatternUndo::Undo: write row iy of the saved
content back at GetpModCommand(firstRow + iy, firstChannel), for
numRows = min(saved rows, current pattern rows) rows. -/
def writeCells (numChannels : Nat) (cells : List ModCommand)
    (firstRow firstChn numChns : Nat) (content : List ModCommand) (numRows : Nat) :
    List ModCommand :=
  (List.range numRows).foldl
    (fun cs iy => writeSeq cs ((firstRow + iy) * numChannels + firstChn)
      ((content.drop (iy * numChns)).take numChns)) cells

/-- Result of CPatternUndo::Undo: the updated document, both stacks, the
returned pattern index (none is PATTERNINDEX_INVALID) and the number of
UpdateAllViews notifications fired. -/
structure PatUndoResult where
  sf : PatSoundFile
  fromBuf : List PatternUndoInfo
  toBuf : List PatternUndoInfo
  ret : Option Nat
  notes : Nat
deriving DecidableEq, Repr

/-- CPatternUndo::Undo(fromBuf, toBuf, linkedFromPrevious). The stacks are
most-recent-first, so the pop-then-maybe-recurse control flow is structural
recursion. Patterns.Insert is modelled as always succeeding, so the
insert-failure early return of the source is absent. -/
def patternUndoGo (maxUndoLevel : Nat) :
    PatSoundFile → List PatternUndoInfo → List PatternUndoInfo → Bool → PatUndoResult
  | sf, [], toBuf, _ => ⟨sf, [], toBuf, none, 0⟩
  | sf, undo :: rest, toBuf, linkedFromPrevious =>
    -- mirror capture of the current state into the destination stack
    let prep := patternPrepareBuffer maxUndoLevel sf toBuf undo.pattern undo.firstChannel
      undo.firstRow undo.numChannels undo.numRows undo.description linkedFromPrevious
      (!undo.channelInfo.isEmpty)
    let toBuf2 := prep.getD toBuf
    let n1 := if prep.isSome then 1 else 0
    -- channel-count reconciliation when channel settings were stored
    let sf2 :=
      if undo.channelInfo.isEmpty then sf
      else
        let sfb :=
          if undo.channelInfo.length ≠ sf.numChannels then
            reArrangeChannels sf ((List.range undo.channelInfo.length).map
              (fun i => if i < min sf.numChannels undo.channelInfo.length then some i else none))
          else sf
        { sfb with chnSettings := undo.channelInfo }
    if undo.firstChannel + undo.numChannels ≤ sf2.numChannels then
      let sf3 :=
        if !(isValidPat sf2 undo.pattern) then patternsInsert sf2 undo.pattern undo.numPatternRows
        else
          match getPattern sf2 undo.pattern with
          | some pat =>
            if pat.numRows ≠ undo.numPatternRows then
              setPattern sf2 undo.pattern (resizePattern sf2.numChannels pat undo.numPatternRows)
            else sf2
          | none => sf2
      match getPattern sf3 undo.pattern with
      | none => ⟨sf3, rest, toBuf2, some undo.pattern, n1 + 1⟩ -- unreachable
      | some pat =>
        let sf4 := setPattern sf3 undo.pattern
          ⟨pat.numRows, writeCells sf3.numChannels pat.cells undo.firstRow undo.firstChannel
            undo.numChannels undo.content (min undo.numRows pat.numRows)⟩
        if undo.linkToPrevious then
          let r := patternUndoGo maxUndoLevel sf4 rest toBuf2 true
          ⟨r.sf, r.fromBuf, r.toBuf, r.ret, n1 + 1 + r.notes⟩
        else
          ⟨sf4, rest, toBuf2, some undo.pattern, n1 + 1⟩
    else
      ⟨sf2, rest, toBuf2, some undo.pattern, n1 + 1⟩

/-- CPatternUndo::Undo(). -/
def patternUndo (maxUndoLevel : Nat) (sf : PatSoundFile)
    (ub rb : List PatternUndoInfo) : PatUndoResult :=
  patternUndoGo maxUndoLevel sf ub rb false

/-- CPatternUndo::Redo(). -/
def patternRedo (maxUndoLevel : Nat) (sf : PatSoundFile)
    (ub rb : List PatternUndoInfo) : PatUndoResult :=
  patternUndoGo maxUndoLevel sf rb ub false

/-! The instrument engine (the part the claims touch). -/

/-- EnvelopeType: the three envelope kinds plus the ENV_MAXTYPES sentinel,
which CInstrumentUndo uses to mean "whole instrument". -/
inductive EnvelopeType where
  | env_volume
  | env_panning
  | env_pitch
  | env_maxtypes
deriving DecidableEq, Repr

/-- envType < ENV_MAXTYPES in the source is the envelope-only case; its
negation selects the whole-instrument case. -/
def isWholeInstrument (e : EnvelopeType) : Bool := e = EnvelopeType.env_maxtypes

/-- The fields of ModInstrument that CInstrumentUndo touches: the
keyboard-to-sample table, the three envelopes and (folded) everything else. -/
structure ModInstrument where
  Keyboard : List Nat
  volEnv : Nat
  panEnv : Nat
  pitchEnv : Nat
  restFields : Nat
deriving DecidableEq, Repr

/-- CInstrumentUndo::UndoInfo. -/
structure InstrUndoInfo where
  description : String
  editedEnvelope : EnvelopeType
  instr : ModInstrument
deriving DecidableEq, Repr

/-- The part of CSoundFile the instrument undo engine touches: the 1-based
instrument pointer array (index 0 unused, none standing for nullptr). -/
structure InsSoundFile where
  instruments : List (Option ModInstrument)
deriving DecidableEq, Repr

abbrev InstrBuf := List (List InstrUndoInfo)

def getInstrSlot (buf : InstrBuf) (ins : Nat) : List InstrUndoInfo := buf.getD (ins - 1) []

/-- CInstrumentUndo::InstrumentBufferExists. -/
def instrBufferExists (buffer : InstrBuf) (maxInstruments ins : Nat) : Bool :=
  if ins = 0 ∨ maxInstruments ≤ ins then false
  else if ins ≤ buffer.length then true
  else false

/-- The per-entry remap CInstrumentUndo::RearrangeSamples applies to a
keyboard-to-sample table entry. -/
def remapKeyboardEntry (newIndex : List Nat) (sample : Nat) : Nat :=
  if sample < newIndex.length then newIndex.getD sample 0 else 0

/-- CInstrumentUndo::RearrangeSamples(buffer, ins, newIndex): in every stored
whole-instrument record of the given instrument, remap the keyboard table
through the mapping; envelope-only records are untouched. -/
def instrRearrangeSamples (maxInstruments : Nat) (sf : InsSoundFile) (buffer : InstrBuf)
    (ins : Nat) (newIndex : List Nat) : InstrBuf :=
  if (sf.instruments.getD ins none).isNone || !(instrBufferExists buffer maxInstruments ins) ||
      (getInstrSlot buffer ins).isEmpty then
    buffer
  else
    buffer.set (ins - 1) ((getInstrSlot buffer ins).map (fun r =>
      if isWholeInstrument r.editedEnvelope then
        { r with instr := { r.instr with
            Keyboard := r.instr.Keyboard.map (remapKeyboardEntry newIndex) } }
      else r))

/-- Modelled from the spec: the public rearrangeSamplesWithinInstruments entry
point (declared in Undo.h, outside src/) applies the buffer-level remap to
both the undo and the redo stack of the engine. -/
def instrRearrangeSamplesBoth (maxInstruments : Nat) (sf : InsSoundFile) (ub rb : InstrBuf)
    (ins : Nat) (newIndex : List Nat) : InstrBuf × InstrBuf :=
  (instrRearrangeSamples maxInstruments sf ub ins newIndex,
    instrRearrangeSamples maxInstruments sf rb ins newIndex)

/-! Concrete fixtures used by witnesses and counterexamples. -/

/-- A 4-row, 2-channel document with one pattern. -/
def sfPat2 : PatSoundFile := ⟨2, [7, 8], [some ⟨4, [1, 2, 3, 4, 5, 6, 7, 8]⟩]⟩

/-- C6. Pattern PrepareBuffer clamps over-large rectangle spans to the
pattern's extents and fails exactly when the pattern id is invalid, firstRow
or firstChn lies outside the pattern/document, or a span is zero. -/
theorem c6_pattern_prepare_clamps (maxU : Nat) (sf : PatSoundFile)
    (buffer : List PatternUndoInfo) (pattern firstChn firstRow numChns numRows : Nat)
    (d : String) (link store : Bool) :
    ((patternPrepareBuffer maxU sf buffer pattern firstChn firstRow numChns numRows d
        link store).isSome ↔
      ∃ pat, getPattern sf pattern = some pat ∧ firstRow < pat.numRows ∧ 1 ≤ numChns ∧
        1 ≤ numRows ∧ firstChn < sf.numChannels) ∧
    ∀ pat buf2, getPattern sf pattern = some pat →
      patternPrepareBuffer maxU sf buffer pattern firstChn firstRow numChns numRows d
        link store = some buf2 →
      ∃ rec rest2, buf2 = rec :: rest2 ∧
        rec.numRows = min numRows (pat.numRows - firstRow) ∧
        rec.numChannels = min numChns (sf.numChannels - firstChn) := by
  unfold patternPrepareBuffer
  rcases hpat : getPattern sf pattern with _ | pat
  · constructor
    · simp
    · intro pat buf2 h1 h2
      simp at h1
  · by_cases hv : pat.numRows ≤ firstRow ∨ numChns < 1 ∨ numRows < 1 ∨
      sf.numChannels ≤ firstChn
    · simp only [hv, if_true]
      constructor
      · simp only [Option.isSome_none]
        constructor
        · intro h; exact absurd h (by simp)
        · rintro ⟨pat2, hp2, h1, h2, h3, h4⟩
          injection hp2 with hp2
          subst hp2
          omega
      · intro pat2 buf2 h1 h2
        simp at h2
    · simp only [hv, if_false]
      push_neg at hv
      constructor
      · simp only [Option.isSome_some, true_iff]
        exact ⟨pat, rfl, by omega, by omega, by omega, by omega⟩
      · intro pat2 buf2 h1 h2
        injection h1 with h1
        subst h1
        injection h2 with h2
        refine ⟨_, _, h2.symm, ?_, ?_⟩
        · simp only []
          split
          · omega
          · omega
        · simp only []
          split
          · omega
          · omega

/-- Witness for C6 at a concrete input: a 7-channel 9-row request at
(row 2, channel 1) on a 4-row 2-channel pattern succeeds and is clamped to
2 rows and 1 channel. -/
theorem c6_witness :
    ((patternPrepareBuffer 100 sfPat2 [] 0 1 2 7 9 "w" false false).isSome ↔
      ∃ pat, getPattern sfPat2 0 = some pat ∧ 2 < pat.numRows ∧ 1 ≤ 7 ∧
        1 ≤ 9 ∧ 1 < sfPat2.numChannels) ∧
    (∃ rec rest2,
      (patternPrepareBuffer 100 sfPat2 [] 0 1 2 7 9 "w" false false).getD [] = rec :: rest2 ∧
      rec.numRows = min 9 ((⟨4, [1, 2, 3, 4, 5, 6, 7, 8]⟩ : CPattern).numRows - 2) ∧
      rec.numChannels = min 7 (sfPat2.numChannels - 1)) := by
  have h := c6_pattern_prepare_clamps 100 sfPat2 [] 0 1 2 7 9 "w" false false
  exact ⟨h.1, h.2 ⟨4, [1, 2, 3, 4, 5, 6, 7, 8]⟩ _ (by rfl) (by rfl)⟩

/-- C10. When the popped pattern record's rectangle no longer fits the current
channel count and no channel info is stored, Undo still removes the record,
fires the notification and returns the record's pattern index, but writes no
cells, creates or resizes no pattern, and ignores the link flag. -/
theorem c10_pattern_undo_misfit (maxU : Nat) (sf : PatSoundFile) (undo : PatternUndoInfo)
    (rest toBuf : List PatternUndoInfo) (lfp : Bool)
    (hinfo : undo.channelInfo = [])
    (hmisfit : sf.numChannels < undo.firstChannel + undo.numChannels) :
    (patternUndoGo maxU sf (undo :: rest) toBuf lfp).sf = sf ∧
    (patternUndoGo maxU sf (undo :: rest) toBuf lfp).fromBuf = rest ∧
    (patternUndoGo maxU sf (undo :: rest) toBuf lfp).ret = some undo.pattern ∧
    1 ≤ (patternUndoGo maxU sf (undo :: rest) toBuf lfp).notes := by
  have hie : undo.channelInfo.isEmpty = true := by simp [hinfo]
  have hfit : ¬ (undo.firstChannel + undo.numChannels ≤ sf.numChannels) := by omega
  simp only [patternUndoGo, hie, if_true, hfit, if_false]
  refine ⟨trivial, trivial, trivial, ?_⟩
  split
  · simp
  · simp

/-- Witness for C10: a linked record 5 channels wide popped over a 2-channel
document is dropped from the stack without touching the document. -/
theorem c10_witness :
    (patternUndoGo 100 sfPat2 [⟨0, 4, 1, 0, 5, 2, [9, 9], [], true, "m"⟩] [] false).sf = sfPat2 ∧
    (patternUndoGo 100 sfPat2 [⟨0, 4, 1, 0, 5, 2, [9, 9], [], true, "m"⟩] [] false).fromBuf = [] ∧
    (patternUndoGo 100 sfPat2 [⟨0, 4, 1, 0, 5, 2, [9, 9], [], true, "m"⟩] [] false).ret = some 0 ∧
    1 ≤ (patternUndoGo 100 sfPat2 [⟨0, 4, 1, 0, 5, 2, [9, 9], [], true, "m"⟩] [] false).notes :=
  c10_pattern_undo_misfit 100 sfPat2 ⟨0, 4, 1, 0, 5, 2, [9, 9], [], true, "m"⟩ [] [] false
    (by rfl) (by decide)

/-- getD after set at the same in-range index returns the written value. -/
theorem getD_set_self {α : Type} (l : List α) (i : Nat) (x d : α) (h : i < l.length) :
    (l.set i x).getD i d = x := by
  induction l generalizing i with
  | nil => simp at h
  | cons a rest ih =>
    cases i with
    | zero => rfl
    | succ j =>
      simp only [List.set]
      simpa [List.getD] using (by simpa [List.getD] using ih j (by simpa using h))

/-- The per-record effect of CInstrumentUndo::RearrangeSamples on the records
of the given instrument's slot. -/
theorem instrRearrangeSamples_spec (maxInstruments : Nat) (sf : InsSoundFile)
    (buffer : InstrBuf) (ins : Nat) (newIndex : List Nat)
    (hins : (sf.instruments.getD ins none).isSome = true)
    (h0 : 1 ≤ ins) (hmax : ins < maxInstruments) :
    ∀ k rec, (getInstrSlot buffer ins).get? k = some rec →
      ∃ rec2,
        (getInstrSlot (instrRearrangeSamples maxInstruments sf buffer ins newIndex) ins).get? k
          = some rec2 ∧
        rec2.editedEnvelope = rec.editedEnvelope ∧
        rec2.description = rec.description ∧
        (isWholeInstrument rec.editedEnvelope = false → rec2 = rec) ∧
        (isWholeInstrument rec.editedEnvelope = true →
          rec2.instr.Keyboard.length = rec.instr.Keyboard.length ∧
          ∀ i s, rec.instr.Keyboard.get? i = some s →
            rec2.instr.Keyboard.get? i =
              some (if s < newIndex.length then newIndex.getD s 0 else 0)) := by
  intro k rec hk
  unfold instrRearrangeSamples
  have hnotnone : (sf.instruments.getD ins none).isNone = false := by
    cases hx : sf.instruments.getD ins none with
    | none => rw [hx] at hins; simp at hins
    | some v => simp
  by_cases hex : instrBufferExists buffer maxInstruments ins
  · have hne : (getInstrSlot buffer ins).isEmpty = false := by
      cases hsl : getInstrSlot buffer ins with
      | nil => rw [hsl] at hk; simp at hk
      | cons a b => simp
    simp only [hnotnone, hex, hne, Bool.not_true, Bool.or_false, Bool.false_or,
      Bool.false_eq_true, if_false]
    have hlen : ins - 1 < buffer.length := by
      unfold instrBufferExists at hex
      by_cases hc : ins = 0 ∨ maxInstruments ≤ ins
      · simp [hc] at hex
      · simp only [hc, if_false] at hex
        by_cases hc2 : ins ≤ buffer.length
        · omega
        · simp [hc2] at hex
    have hslot : ∀ x : List InstrUndoInfo, getInstrSlot (buffer.set (ins - 1) x) ins = x := by
      intro x
      unfold getInstrSlot
      exact getD_set_self buffer (ins - 1) x [] hlen
    rw [hslot]
    set f : InstrUndoInfo → InstrUndoInfo := fun r =>
      if isWholeInstrument r.editedEnvelope then
        { r with instr := { r.instr with
            Keyboard := r.instr.Keyboard.map (remapKeyboardEntry newIndex) } }
      else r with hf
    refine ⟨f rec, ?_, ?_⟩
    · rw [List.get?_map, hk]
      rfl
    · by_cases hw : isWholeInstrument rec.editedEnvelope = true
      · have hfr : f rec = { rec with instr := { rec.instr with
            Keyboard := rec.instr.Keyboard.map (remapKeyboardEntry newIndex) } } := by
          rw [hf]
          simp only [hw, if_true]
        rw [hfr]
        refine ⟨rfl, rfl, ?_, ?_⟩
        · intro hfalse
          rw [hfalse] at hw
          simp at hw
        · intro _
          refine ⟨by simp, ?_⟩
          intro i s hi
          simp only [List.get?_map, hi]
          simp [remapKeyboardEntry]
      · have hwf : isWholeInstrument rec.editedEnvelope = false := by
          revert hw
          cases isWholeInstrument rec.editedEnvelope
          · intro _; rfl
          · intro hw; exact absurd rfl hw
        have hfr : f rec = rec := by
          rw [hf]
          simp [hwf]
        rw [hfr]
        refine ⟨rfl, rfl, fun _ => rfl, ?_⟩
        intro hw2
        rw [hw2] at hwf
        simp at hwf
  · exfalso
    unfold instrBufferExists at hex
    by_cases hc : ins = 0 ∨ maxInstruments ≤ ins
    · omega
    · simp only [hc, if_false] at hex
      by_cases hc2 : ins ≤ buffer.length
      · simp [hc2] at hex
      · have hempty : getInstrSlot buffer ins = [] := by
          unfold getInstrSlot
          apply List.getD_eq_default
          omega
        rw [hempty] at hk
        simp at hk

/-- A document with one instrument in slot 1. -/
def sfIns1 : InsSoundFile := ⟨[none, some ⟨[0, 1, 2, 3], 0, 0, 0, 0⟩]⟩

/-- C9. rearrangeSamplesWithinInstruments remaps, in every stored
whole-instrument record of the given instrument on both stacks, each keyboard
entry through the mapping, clears entries not below the mapping's size to 0,
and leaves envelope-only records unchanged. -/
theorem c9_rearrange_samples_within_instruments (maxInstruments : Nat) (sf : InsSoundFile)
    (ub rb : InstrBuf) (ins : Nat) (newIndex : List Nat)
    (hins : (sf.instruments.getD ins none).isSome = true)
    (h0 : 1 ≤ ins) (hmax : ins < maxInstruments) :
    (∀ k rec, (getInstrSlot ub ins).get? k = some rec →
      ∃ rec2,
        (getInstrSlot (instrRearrangeSamplesBoth maxInstruments sf ub rb ins newIndex).1
          ins).get? k = some rec2 ∧
        rec2.editedEnvelope = rec.editedEnvelope ∧
        rec2.description = rec.description ∧
        (isWholeInstrument rec.editedEnvelope = false → rec2 = rec) ∧
        (isWholeInstrument rec.editedEnvelope = true →
          rec2.instr.Keyboard.length = rec.instr.Keyboard.length ∧
          ∀ i s, rec.instr.Keyboard.get? i = some s →
            rec2.instr.Keyboard.get? i =
              some (if s < newIndex.length then newIndex.getD s 0 else 0))) ∧
    (∀ k rec, (getInstrSlot rb ins).get? k = some rec →
      ∃ rec2,
        (getInstrSlot (instrRearrangeSamplesBoth maxInstruments sf ub rb ins newIndex).2
          ins).get? k = some rec2 ∧
        rec2.editedEnvelope = rec.editedEnvelope ∧
        rec2.description = rec.description ∧
        (isWholeInstrument rec.editedEnvelope = false → rec2 = rec) ∧
        (isWholeInstrument rec.editedEnvelope = true →
          rec2.instr.Keyboard.length = rec.instr.Keyboard.length ∧
          ∀ i s, rec.instr.Keyboard.get? i = some s →
            rec2.instr.Keyboard.get? i =
              some (if s < newIndex.length then newIndex.getD s 0 else 0))) :=
  ⟨instrRearrangeSamples_spec maxInstruments sf ub ins newIndex hins h0 hmax,
    instrRearrangeSamples_spec maxInstruments sf rb ins newIndex hins h0 hmax⟩

/-- Witness for C9: a whole-instrument record with keyboard table
entries 0, 1, 2, 5 under the mapping with entries 0, 9, 8 gets entry 1
remapped to 9 and the out-of-range entry 5 cleared to 0. -/
theorem c9_witness :
    ∃ rec2,
      (getInstrSlot (instrRearrangeSamplesBoth 10 sfIns1
          [[⟨"w", EnvelopeType.env_maxtypes, ⟨[0, 1, 2, 5], 1, 2, 3, 4⟩⟩]] [] 1
          [0, 9, 8]).1 1).get? 0 = some rec2 ∧
      rec2.instr.Keyboard.get? 1 =
        some (if 1 < ([0, 9, 8] : List Nat).length then ([0, 9, 8] : List Nat).getD 1 0 else 0) ∧
      rec2.instr.Keyboard.get? 3 =
        some (if 5 < ([0, 9, 8] : List Nat).length then ([0, 9, 8] : List Nat).getD 5 0 else 0) := by
  obtain ⟨rec2, hg, _, _, _, hw⟩ :=
    (c9_rearrange_samples_within_instruments 10 sfIns1
      [[⟨"w", EnvelopeType.env_maxtypes, ⟨[0, 1, 2, 5], 1, 2, 3, 4⟩⟩]] [] 1 [0, 9, 8]
      (by decide) (by decide) (by decide)).1 0
      ⟨"w", EnvelopeType.env_maxtypes, ⟨[0, 1, 2, 5], 1, 2, 3, 4⟩⟩ (by rfl)
  obtain ⟨_, hent⟩ := hw (by rfl)
  exact ⟨rec2, hg, hent 1 1 (by rfl), hent 3 5 (by rfl)⟩

/-- A sweep preserves the number of sample slots. -/
theorem restrictPass_length (budget : Nat) (bufs : SampleBuf) :
    ∀ cap, (restrictPass budget bufs cap).1.length = bufs.length := by
  induction bufs with
  | nil => intro cap; rfl
  | cons slot rest ih =>
    intro cap
    unfold restrictPass
    by_cases hc : cap ≤ budget
    · simp [hc]
    · simp only [hc, if_false]
      rcases hd : dropThroughFirstPtr slot with _ | ⟨b, slot2⟩
      · simpa using ih cap
      · simpa using ih (cap - b)

/-- The eviction loop preserves the number of sample slots of both stacks. -/
theorem restrictLoop_length (budget : Nat) :
    ∀ fuel ub rb cap,
      (restrictLoop budget fuel ub rb cap).1.length = ub.length ∧
      (restrictLoop budget fuel ub rb cap).2.1.length = rb.length := by
  intro fuel
  induction fuel with
  | zero => intro ub rb cap; exact ⟨rfl, rfl⟩
  | succ fuel ih =>
    intro ub rb cap
    unfold restrictLoop
    by_cases hc : cap ≤ budget
    · simp [hc]
    · simp only [hc, if_false]
      have h1 := restrictPass_length budget ub cap
      have h2 := restrictPass_length budget rb (restrictPass budget ub cap).2
      have h3 := ih (restrictPass budget ub cap).1
        (restrictPass budget rb (restrictPass budget ub cap).2).1
        (restrictPass budget rb (restrictPass budget ub cap).2).2
      omega

/-- RestrictBufferSize preserves the number of sample slots of both stacks. -/
theorem restrictBufferSize_length (budget : Nat) (ub rb : SampleBuf) :
    (restrictBufferSize budget ub rb).1.length = ub.length ∧
    (restrictBufferSize budget ub rb).2.length = rb.length := by
  have hdef : restrictBufferSize budget ub rb =
      ((restrictLoop budget (ptrCount ub + ptrCount rb) ub rb
          (getBufferCapacity ub + getBufferCapacity rb)).1,
        (restrictLoop budget (ptrCount ub + ptrCount rb) ub rb
          (getBufferCapacity ub + getBufferCapacity rb)).2.1) := rfl
  rw [hdef]
  exact restrictLoop_length budget (ptrCount ub + ptrCount rb) ub rb
    (getBufferCapacity ub + getBufferCapacity rb)

theorem slotCapacity_concat (slot : List SampleUndoInfo) (u : SampleUndoInfo) :
    slotCapacity (slot ++ [u]) = slotCapacity slot + stepContrib u := by
  induction slot with
  | nil => simp
  | cons st rest ih => simp [ih]; omega

/-- Appending one record to a slot adds at most that record's contribution to
the summed capacity. -/
theorem getBufferCapacity_set_concat (buf : SampleBuf) (i : Nat) (u : SampleUndoInfo) :
    getBufferCapacity (buf.set i (buf.getD i [] ++ [u])) ≤
      getBufferCapacity buf + stepContrib u := by
  induction buf generalizing i with
  | nil => simp
  | cons slot rest ih =>
    cases i with
    | zero =>
      simp only [List.set, List.getD, getBufferCapacity_cons]
      have := slotCapacity_concat slot u
      simp only [List.get?] at this ⊢
      simp [List.getD] at this ⊢
      omega
    | succ j =>
      simp only [List.set, getBufferCapacity_cons]
      have hd : (slot :: rest).getD (j + 1) [] = rest.getD j [] := by
        simp [List.getD]
      rw [hd]
      have := ih j
      omega

/-- The opposite change kind written down from the specification: the
delete/insert swap, everything else mapped to itself. -/
def specOppositeKind : SampleUndoType → SampleUndoType
  | SampleUndoType.sundo_delete => SampleUndoType.sundo_insert
  | SampleUndoType.sundo_insert => SampleUndoType.sundo_delete
  | t => t

theorem growBuf_le_length (smp : Nat) (buf : SampleBuf) : smp ≤ (growBuf smp buf).length := by
  unfold growBuf
  by_cases h : buf.length < smp
  · simp [h]
    omega
  · simp [h]
    omega

theorem capTrimBuf_length (maxU smp : Nat) (buf : SampleBuf) :
    (capTrimBuf maxU smp buf).length = (growBuf smp buf).length := by
  unfold capTrimBuf
  simp

theorem smp_le_capTrimBuf_length (maxU smp : Nat) (buf : SampleBuf) :
    smp ≤ (capTrimBuf maxU smp buf).length := by
  rw [capTrimBuf_length]
  exact growBuf_le_length smp buf

theorem getSlot_pushSlot (buf : SampleBuf) (smp : Nat) (u : SampleUndoInfo)
    (h : smp - 1 < buf.length) : getSlot (pushSlot buf smp u) smp = getSlot buf smp ++ [u] := by
  unfold pushSlot getSlot
  exact getD_set_self buf (smp - 1) _ [] h

theorem pushSlot_length (buf : SampleBuf) (smp : Nat) (u : SampleUndoInfo) :
    (pushSlot buf smp u).length = buf.length := by
  unfold pushSlot
  simp

theorem mkSampleUndoRecord_changeType (sf : SmpSoundFile) (smp : Nat)
    (ct : SampleUndoType) (d : String) (fr : Nat × Nat) :
    (mkSampleUndoRecord sf smp ct d fr).changeType = ct := by
  unfold mkSampleUndoRecord
  rfl

theorem stepContrib_mkSampleUndoRecord (sf : SmpSoundFile) (smp : Nat)
    (ct : SampleUndoType) (d : String) (fr : Nat × Nat) :
    stepContrib (mkSampleUndoRecord sf smp ct d fr) ≤
      (fr.2 - fr.1) * (getSample sf smp).bytesPerSample := by
  unfold mkSampleUndoRecord stepContrib
  cases ct <;> simp <;> split <;> simp

/-- Characterization of CSampleUndo::PrepareBuffer on the success path: with
a valid sample id, a nonzero budget and a valid (forced) range, it trims the
slot to the entry cap, evicts to the byte budget, and pushes the new record
onto the target slot. -/
theorem samplePrepareBuffer_valid (maxSamples maxUndoLevel budget : Nat) (sf : SmpSoundFile)
    (sys : SampleUndoSys) (toUndo : Bool) (smp : Nat) (ct : SampleUndoType) (d : String)
    (cs ce : Nat) (h0 : smp ≠ 0) (hmax : smp < maxSamples) (hb : budget ≠ 0)
    (hr : ¬ ((getSample sf smp).nLength < (forcedRange ct (getSample sf smp).nLength cs ce).1 ∨
      (forcedRange ct (getSample sf smp).nLength cs ce).2 <
        (forcedRange ct (getSample sf smp).nLength cs ce).1)) :
    samplePrepareBuffer maxSamples maxUndoLevel budget sf sys toUndo smp ct d cs ce =
      (true,
        if toUndo then
          ⟨pushSlot (restrictBufferSize budget (capTrimBuf maxUndoLevel smp sys.ub) sys.rb).1 smp
              (mkSampleUndoRecord sf smp ct d (forcedRange ct (getSample sf smp).nLength cs ce)),
            (restrictBufferSize budget (capTrimBuf maxUndoLevel smp sys.ub) sys.rb).2⟩
        else
          ⟨(restrictBufferSize budget sys.ub (capTrimBuf maxUndoLevel smp sys.rb)).1,
            pushSlot (restrictBufferSize budget sys.ub (capTrimBuf maxUndoLevel smp sys.rb)).2 smp
              (mkSampleUndoRecord sf smp ct d
                (forcedRange ct (getSample sf smp).nLength cs ce))⟩) := by
  have hc1 : ¬ (smp = 0 ∨ maxSamples ≤ smp) := by omega
  unfold samplePrepareBuffer
  rw [if_neg hc1, if_neg hb]
  cases toUndo
  · simp [hr]
  · simp [hr]

theorem getBufferCapacity_pushSlot (buf : SampleBuf) (smp : Nat) (u : SampleUndoInfo) :
    getBufferCapacity (pushSlot buf smp u) ≤ getBufferCapacity buf + stepContrib u := by
  unfold pushSlot getSlot
  exact getBufferCapacity_set_concat buf (smp - 1) u

/-- C1 (amended). Eviction (RestrictBufferSize) always leaves the summed
owned-buffer bytes of both sample stacks within the configured budget; since
it runs before each new snapshot allocation, the total just before each
allocation fits the budget, and immediately after a successful PrepareBuffer
the total exceeds the budget by at most the new snapshot's byte size. -/
theorem c1_sample_budget_after_eviction :
    (∀ budget ub rb, getBufferCapacity (restrictBufferSize budget ub rb).1 +
      getBufferCapacity (restrictBufferSize budget ub rb).2 ≤ budget) ∧
    (∀ maxSamples maxUndoLevel budget sf sys toUndo smp ct d cs ce,
      smp ≠ 0 → smp < maxSamples → budget ≠ 0 →
      ¬ ((getSample sf smp).nLength < (forcedRange ct (getSample sf smp).nLength cs ce).1 ∨
        (forcedRange ct (getSample sf smp).nLength cs ce).2 <
          (forcedRange ct (getSample sf smp).nLength cs ce).1) →
      getBufferCapacity (samplePrepareBuffer maxSamples maxUndoLevel budget sf sys toUndo smp
          ct d cs ce).2.ub +
        getBufferCapacity (samplePrepareBuffer maxSamples maxUndoLevel budget sf sys toUndo smp
          ct d cs ce).2.rb ≤
        budget + ((forcedRange ct (getSample sf smp).nLength cs ce).2 -
          (forcedRange ct (getSample sf smp).nLength cs ce).1) *
          (getSample sf smp).bytesPerSample) := by
  constructor
  · exact restrictBufferSize_le
  · intro maxSamples maxUndoLevel budget sf sys toUndo smp ct d cs ce h0 hmax hb hr
    rw [samplePrepareBuffer_valid maxSamples maxUndoLevel budget sf sys toUndo smp ct d cs ce
      h0 hmax hb hr]
    have h3 := stepContrib_mkSampleUndoRecord sf smp ct d
      (forcedRange ct (getSample sf smp).nLength cs ce)
    cases toUndo
    · rw [if_neg (by decide : ¬ (false = true))]
      dsimp only
      have h1 := restrictBufferSize_le budget sys.ub (capTrimBuf maxUndoLevel smp sys.rb)
      have h2 := getBufferCapacity_pushSlot
        (restrictBufferSize budget sys.ub (capTrimBuf maxUndoLevel smp sys.rb)).2 smp
        (mkSampleUndoRecord sf smp ct d (forcedRange ct (getSample sf smp).nLength cs ce))
      omega
    · rw [if_pos (by decide : (true = true))]
      dsimp only
      have h1 := restrictBufferSize_le budget (capTrimBuf maxUndoLevel smp sys.ub) sys.rb
      have h2 := getBufferCapacity_pushSlot
        (restrictBufferSize budget (capTrimBuf maxUndoLevel smp sys.ub) sys.rb).1 smp
        (mkSampleUndoRecord sf smp ct d (forcedRange ct (getSample sf smp).nLength cs ce))
      omega

/-- An 8-frame 8-bit mono sample in slot 1. -/
def sfSmp8 : SmpSoundFile := ⟨[default, ⟨8, 1, [1, 2, 3, 4, 5, 6, 7, 8], false, false, 0⟩],
  ["", "s"]⟩

/-- Witness for C1: an update snapshot of all 8 bytes under a 4-byte budget
leaves at most 4 + 8 bytes in the stacks. -/
theorem c1_witness :
    getBufferCapacity (samplePrepareBuffer 10 100 4 sfSmp8 ⟨[[]], [[]]⟩ true 1
        SampleUndoType.sundo_update "u" 0 8).2.ub +
      getBufferCapacity (samplePrepareBuffer 10 100 4 sfSmp8 ⟨[[]], [[]]⟩ true 1
        SampleUndoType.sundo_update "u" 0 8).2.rb ≤ 4 + 8 :=
  c1_sample_budget_after_eviction.2 10 100 4 sfSmp8 ⟨[[]], [[]]⟩ true 1
    SampleUndoType.sundo_update "u" 0 8 (by decide) (by decide) (by decide) (by decide)

/-- Counterexample to C1 as stated: after a successful prepareUndo (an
8-byte update snapshot under a 4-byte budget) the summed owned-buffer bytes
are 8, exceeding the configured budget 4 — the shared budget is enforced
before the new snapshot buffer is allocated, not after. -/
theorem c1_counterexample :
    (samplePrepareUndo 10 100 4 sfSmp8 ⟨[[]], [[]]⟩ 1
        SampleUndoType.sundo_update "u" 0 8).1 = true ∧
    getBufferCapacity (samplePrepareUndo 10 100 4 sfSmp8 ⟨[[]], [[]]⟩ 1
        SampleUndoType.sundo_update "u" 0 8).2.ub +
      getBufferCapacity (samplePrepareUndo 10 100 4 sfSmp8 ⟨[[]], [[]]⟩ 1
        SampleUndoType.sundo_update "u" 0 8).2.rb = 8 ∧
    ¬ (8 ≤ 4) := by
  refine ⟨by rfl, by rfl, by decide⟩

/-- C4 (amended). Sample PrepareBuffer fails exactly when the sample id is 0
or not below MAX_SAMPLES, the configured budget is zero, or — after forcing
the range to [0, currentLength) for replace and to the empty range for
none — changeStart exceeds the recorded length or changeStart exceeds
changeEnd. (When the post-forcing range check is what fails, the per-sample
entry-cap eviction has already run, so the stacks may have changed; see the
counterexample.) -/
theorem c4_sample_prepare_failure_conditions (maxSamples maxUndoLevel budget : Nat)
    (sf : SmpSoundFile) (sys : SampleUndoSys) (toUndo : Bool) (smp : Nat)
    (ct : SampleUndoType) (d : String) (cs ce : Nat) :
    (samplePrepareBuffer maxSamples maxUndoLevel budget sf sys toUndo smp ct d cs ce).1 = true ↔
      (smp ≠ 0 ∧ smp < maxSamples ∧ budget ≠ 0 ∧
        (forcedRange ct (getSample sf smp).nLength cs ce).1 ≤ (getSample sf smp).nLength ∧
        (forcedRange ct (getSample sf smp).nLength cs ce).1 ≤
          (forcedRange ct (getSample sf smp).nLength cs ce).2) := by
  unfold samplePrepareBuffer
  by_cases h1 : smp = 0 ∨ maxSamples ≤ smp
  · rw [if_pos h1]
    constructor
    · intro h; simp at h
    · rintro ⟨a, b, c, e, f⟩; omega
  · rw [if_neg h1]
    by_cases h2 : budget = 0
    · rw [if_pos h2]
      constructor
      · intro h; simp at h
      · rintro ⟨a, b, c, e, f⟩; omega
    · rw [if_neg h2]
      dsimp only
      by_cases h3 : (getSample sf smp).nLength <
          (forcedRange ct (getSample sf smp).nLength cs ce).1 ∨
          (forcedRange ct (getSample sf smp).nLength cs ce).2 <
          (forcedRange ct (getSample sf smp).nLength cs ce).1
      · rw [if_pos h3]
        constructor
        · intro h; simp at h
        · rintro ⟨a, b, c, e, f⟩; omega
      · rw [if_neg h3]
        constructor
        · intro _; refine ⟨by omega, by omega, h2, by omega, by omega⟩
        · intro _; rfl

/-- Counterexample to C4's "with no stack change": with the per-sample entry
cap at 1 and an already-full slot, a PrepareBuffer call that fails the range
check (changeStart 5 > changeEnd 3) still evicts the slot's record first. -/
theorem c4_counterexample :
    (samplePrepareBuffer 10 1 4 sfSmp8
        ⟨[[⟨default, "", SampleUndoType.sundo_none, "x", 0, 0, none⟩]], [[]]⟩ true 1
        SampleUndoType.sundo_update "u" 5 3).1 = false ∧
    (samplePrepareBuffer 10 1 4 sfSmp8
        ⟨[[⟨default, "", SampleUndoType.sundo_none, "x", 0, 0, none⟩]], [[]]⟩ true 1
        SampleUndoType.sundo_update "u" 5 3).2.ub = [[]] ∧
    ([[]] : SampleBuf) ≠ [[⟨default, "", SampleUndoType.sundo_none, "x", 0, 0, none⟩]] :=
  ⟨by rfl, by rfl, by decide⟩

/-- C2 (amended). Failures detected before any stack mutation leave the
stacks untouched: sample PrepareBuffer failing its id or budget checks,
sample Undo/Redo failing its existence/emptiness guard, and pattern
PrepareUndo failing validation, all return with both stacks exactly as
before. (A sample undo that fails mid-restore has, by contrast, already
popped the source record and possibly pushed a mirror record; see the
counterexample.) -/
theorem c2_early_failures_preserve_stacks :
    (∀ maxSamples maxUndoLevel budget sf sys toUndo smp ct d cs ce,
      (smp = 0 ∨ maxSamples ≤ smp ∨ budget = 0) →
      samplePrepareBuffer maxSamples maxUndoLevel budget sf sys toUndo smp ct d cs ce =
        (false, sys)) ∧
    (∀ maxSamples maxUndoLevel budget sf sys fromUndo smp,
      (!(sampleBufferExists (if fromUndo then sys.ub else sys.rb) maxSamples smp) ||
        (getSlot (if fromUndo then sys.ub else sys.rb) smp).isEmpty) = true →
      sampleUndoStep maxSamples maxUndoLevel budget sf sys fromUndo smp = (false, sf, sys)) ∧
    (∀ maxUndoLevel sf ub rb pattern firstChn firstRow numChns numRows d link store,
      patternPrepareBuffer maxUndoLevel sf ub pattern firstChn firstRow numChns numRows d
        link store = none →
      patternPrepareUndo maxUndoLevel sf ub rb pattern firstChn firstRow numChns numRows d
        link store = (false, ub, rb)) := by
  refine ⟨?_, ?_, ?_⟩
  · intro maxSamples maxUndoLevel budget sf sys toUndo smp ct d cs ce h
    unfold samplePrepareBuffer
    by_cases h1 : smp = 0 ∨ maxSamples ≤ smp
    · rw [if_pos h1]
    · rw [if_neg h1, if_pos (by omega : budget = 0)]
  · intro maxSamples maxUndoLevel budget sf sys fromUndo smp h
    unfold sampleUndoStep
    rw [if_pos h]
  · intro maxUndoLevel sf ub rb pattern firstChn firstRow numChns numRows d link store h
    unfold patternPrepareUndo
    rw [h]

/-- A 2-frame live sample whose undo stack holds an update record reaching
frame 4 (the sample has shrunk since the record was captured). -/
def sfShrunk : SmpSoundFile := ⟨[default, ⟨2, 1, [5, 6], false, false, 0⟩], ["", "s"]⟩

/-- The stacks for the C2 counterexample: one update record for sample 1,
covering frames [0, 4) of a formerly 4-frame sample. -/
def sysShrunk : SampleUndoSys :=
  ⟨[[⟨⟨4, 1, [], false, false, 0⟩, "old", SampleUndoType.sundo_update, "u", 0, 4,
    some [1, 2, 3, 4]⟩]], [[]]⟩

/-- Counterexample to C2: a sample undo that fails mid-restore (update record
with changeEnd 4 beyond the current 2-frame length) returns failure with the
record already popped from the undo stack (and a mirror record pushed on the
redo stack), so the stacks are not as they were before the call. -/
theorem c2_counterexample :
    (sampleUndo 10 100 100 sfShrunk sysShrunk 1).1 = false ∧
    (sampleUndo 10 100 100 sfShrunk sysShrunk 1).2.2.ub = [[]] ∧
    sysShrunk.ub ≠ [[]] :=
  ⟨by rfl, by rfl, by decide⟩

/-- Witness for C2: a prepare on sample id 0 fails and returns the stacks
unchanged. -/
theorem c2_witness :
    samplePrepareBuffer 10 100 4 sfSmp8 ⟨[[]], [[]]⟩ true 0
      SampleUndoType.sundo_none "w" 0 0 = (false, ⟨[[]], [[]]⟩) :=
  c2_early_failures_preserve_stacks.1 10 100 4 sfSmp8 ⟨[[]], [[]]⟩ true 0
    SampleUndoType.sundo_none "w" 0 0 (by decide)

theorem set_of_length_le {α : Type} (l : List α) (i : Nat) (x : α) (h : l.length ≤ i) :
    l.set i x = l := by
  induction l generalizing i with
  | nil => rfl
  | cons a rest ih =>
    cases i with
    | zero => simp at h
    | succ j =>
      simp only [List.set]
      rw [ih j (by simpa using h)]

/-- Writing back a sample whose keep-on-disk flag is clear, over a document
whose sample also had the flag clear, leaves the flag clear. -/
theorem getSample_write_keep (sf : SmpSoundFile) (smp : Nat) (s : ModSample) (n : String)
    (hflag : s.keepOnDisk = false) (h : (getSample sf smp).keepOnDisk = false) :
    (getSample (setSampleName (setSample sf smp s) smp n) smp).keepOnDisk = false := by
  unfold getSample setSample setSampleName at *
  dsimp only at *
  by_cases hlen : smp < sf.samples.length
  · rw [getD_set_self sf.samples smp s default hlen]
    exact hflag
  · rw [set_of_length_le sf.samples smp s (by omega)]
    exact h

/-- C8. During sample undo/redo, a cleared keep-on-disk flag stays cleared:
if the live sample's flag is false before the restore, it is false after,
even when the saved header had it set. -/
theorem c8_keep_on_disk_never_reenabled (maxSamples maxUndoLevel budget : Nat)
    (sf : SmpSoundFile) (sys : SampleUndoSys) (fromUndo : Bool) (smp : Nat)
    (h : (getSample sf smp).keepOnDisk = false) :
    (getSample (sampleUndoStep maxSamples maxUndoLevel budget sf sys fromUndo smp).2.1
      smp).keepOnDisk = false := by
  unfold sampleUndoStep
  by_cases hg : (!(sampleBufferExists (if fromUndo then sys.ub else sys.rb) maxSamples smp) ||
      (getSlot (if fromUndo then sys.ub else sys.rb) smp).isEmpty) = true
  · rw [if_pos hg]
    exact h
  · rw [if_neg hg]
    rcases hl : (getSlot (if fromUndo then sys.ub else sys.rb) smp).getLast? with _ | undo
    · exact h
    · cases hct : undo.changeType <;>
        first
        | (simp only [hct]
           simp only [h, Bool.not_false, if_true]
           exact getSample_write_keep sf smp _ _ rfl h)
        | (simp only [hct]
           by_cases hu : (getSample sf smp).nLength < undo.changeEnd
           · simp only [hu, if_true]
             exact h
           · simp only [hu, if_false]
             simp only [h, Bool.not_false, if_true]
             exact getSample_write_keep sf smp _ _ rfl h)

/-- Witness for C8: undoing a replace record whose saved header has the
keep-on-disk flag set, over a live sample with the flag clear, leaves the
flag clear. -/
theorem c8_witness :
    (getSample (sampleUndoStep 10 100 100 sfShrunk
      ⟨[[⟨⟨2, 1, [9, 9], true, false, 0⟩, "old", SampleUndoType.sundo_replace, "r", 0, 2,
        some [9, 9]⟩]], [[]]⟩ true 1).2.1 1).keepOnDisk = false :=
  c8_keep_on_disk_never_reenabled 10 100 100 sfShrunk
    ⟨[[⟨⟨2, 1, [9, 9], true, false, 0⟩, "old", SampleUndoType.sundo_replace, "r", 0, 2,
      some [9, 9]⟩]], [[]]⟩ true 1 (by rfl)

/-- C5. For every sample undo or redo that pops a record, the mirror record
pushed onto the destination stack is captured under the opposite change
kind: delete and insert swapped, every other kind mapped to itself
(specOppositeKind states the specified mapping). -/
theorem c5_mirror_opposite_kind (maxSamples maxUndoLevel budget : Nat) (sf : SmpSoundFile)
    (sys : SampleUndoSys) (fromUndo : Bool) (smp : Nat) (undo : SampleUndoInfo)
    (hg : (!(sampleBufferExists (if fromUndo then sys.ub else sys.rb) maxSamples smp) ||
      (getSlot (if fromUndo then sys.ub else sys.rb) smp).isEmpty) = false)
    (hl : (getSlot (if fromUndo then sys.ub else sys.rb) smp).getLast? = some undo)
    (h0 : smp ≠ 0) (hmax : smp < maxSamples) (hb : budget ≠ 0)
    (hr : ¬ ((getSample sf smp).nLength < (forcedRange (specOppositeKind undo.changeType)
        (getSample sf smp).nLength undo.changeStart undo.changeEnd).1 ∨
      (forcedRange (specOppositeKind undo.changeType) (getSample sf smp).nLength
        undo.changeStart undo.changeEnd).2 <
      (forcedRange (specOppositeKind undo.changeType) (getSample sf smp).nLength
        undo.changeStart undo.changeEnd).1)) :
    ∃ rec,
      (getSlot (if fromUndo then
          (sampleUndoStep maxSamples maxUndoLevel budget sf sys fromUndo smp).2.2.rb
        else (sampleUndoStep maxSamples maxUndoLevel budget sf sys fromUndo smp).2.2.ub)
        smp).getLast? = some rec ∧
      rec.changeType = specOppositeKind undo.changeType := by
  have hkind : (if undo.changeType = SampleUndoType.sundo_delete then
        SampleUndoType.sundo_insert
      else if undo.changeType = SampleUndoType.sundo_insert then SampleUndoType.sundo_delete
      else undo.changeType) = specOppositeKind undo.changeType := by
    cases undo.changeType <;> rfl
  unfold sampleUndoStep
  dsimp only
  have hg2 : ¬ ((!(sampleBufferExists (if fromUndo then sys.ub else sys.rb) maxSamples smp) ||
      (getSlot (if fromUndo then sys.ub else sys.rb) smp).isEmpty) = true) := by
    rw [hg]
    simp
  rw [if_neg hg2, hl]
  cases fromUndo
  · simp only [Bool.false_eq_true, if_false, Bool.not_false]
    rw [hkind]
    rw [samplePrepareBuffer_valid maxSamples maxUndoLevel budget sf
      ⟨sys.ub, (sys.rb).set (smp - 1) (getSlot sys.rb smp).dropLast⟩ true smp
      (specOppositeKind undo.changeType) undo.description undo.changeStart undo.changeEnd
      h0 hmax hb hr]
    have hlen : smp - 1 <
        (restrictBufferSize budget
          (capTrimBuf maxUndoLevel smp sys.ub)
          ((sys.rb).set (smp - 1) (getSlot sys.rb smp).dropLast)).1.length := by
      have h1 := (restrictBufferSize_length budget
        (capTrimBuf maxUndoLevel smp sys.ub)
        ((sys.rb).set (smp - 1) (getSlot sys.rb smp).dropLast)).1
      have h2 := smp_le_capTrimBuf_length maxUndoLevel smp sys.ub
      omega
    split
    · dsimp only
      try rw [if_pos (by decide : (true = true))]
      try dsimp only
      rw [getSlot_pushSlot _ smp _ hlen, List.getLast?_concat]
      exact ⟨_, rfl, mkSampleUndoRecord_changeType sf smp _ undo.description _⟩
    · dsimp only
      try rw [if_pos (by decide : (true = true))]
      try dsimp only
      rw [getSlot_pushSlot _ smp _ hlen, List.getLast?_concat]
      exact ⟨_, rfl, mkSampleUndoRecord_changeType sf smp _ undo.description _⟩
  · simp only [eq_self_iff_true, if_true, Bool.not_true]
    rw [hkind]
    rw [samplePrepareBuffer_valid maxSamples maxUndoLevel budget sf
      ⟨(sys.ub).set (smp - 1) (getSlot sys.ub smp).dropLast, sys.rb⟩ false smp
      (specOppositeKind undo.changeType) undo.description undo.changeStart undo.changeEnd
      h0 hmax hb hr]
    have hlen : smp - 1 <
        (restrictBufferSize budget
          ((sys.ub).set (smp - 1) (getSlot sys.ub smp).dropLast)
          (capTrimBuf maxUndoLevel smp sys.rb)).2.length := by
      have h1 := (restrictBufferSize_length budget
        ((sys.ub).set (smp - 1) (getSlot sys.ub smp).dropLast)
        (capTrimBuf maxUndoLevel smp sys.rb)).2
      have h2 := smp_le_capTrimBuf_length maxUndoLevel smp sys.rb
      omega
    split
    · dsimp only
      try rw [if_neg (by decide : ¬ (false = true))]
      try dsimp only
      rw [getSlot_pushSlot _ smp _ hlen, List.getLast?_concat]
      exact ⟨_, rfl, mkSampleUndoRecord_changeType sf smp _ undo.description _⟩
    · dsimp only
      try rw [if_neg (by decide : ¬ (false = true))]
      try dsimp only
      rw [getSlot_pushSlot _ smp _ hlen, List.getLast?_concat]
      exact ⟨_, rfl, mkSampleUndoRecord_changeType sf smp _ undo.description _⟩

/-- Witness for C5: undoing a delete record pushes an insert mirror record
onto the redo stack. -/
theorem c5_witness :
    ∃ rec,
      (getSlot (sampleUndoStep 10 100 100 sfShrunk
        ⟨[[⟨⟨4, 1, [], false, false, 0⟩, "old", SampleUndoType.sundo_delete, "d", 0, 1,
          some [7]⟩]], [[]]⟩ true 1).2.2.rb 1).getLast? = some rec ∧
      rec.changeType = specOppositeKind SampleUndoType.sundo_delete :=
  c5_mirror_opposite_kind 10 100 100 sfShrunk
    ⟨[[⟨⟨4, 1, [], false, false, 0⟩, "old", SampleUndoType.sundo_delete, "d", 0, 1,
      some [7]⟩]], [[]]⟩ true 1
    ⟨⟨4, 1, [], false, false, 0⟩, "old", SampleUndoType.sundo_delete, "d", 0, 1, some [7]⟩
    (by rfl) (by rfl) (by decide) (by decide) (by decide) (by decide)

/-! Pattern restore helper lemmas. -/

theorem isValidPat_lt (sf : PatSoundFile) (p : Nat) (h : isValidPat sf p = true) :
    p < sf.patterns.length := by
  unfold isValidPat getPattern at h
  by_contra hge
  rw [List.getD_eq_default _ _ (by omega)] at h
  simp at h

theorem patternsInsert_numChannels (sf : PatSoundFile) (p rows : Nat) :
    (patternsInsert sf p rows).numChannels = sf.numChannels := rfl

theorem setPattern_numChannels (sf : PatSoundFile) (p : Nat) (pat : CPattern) :
    (setPattern sf p pat).numChannels = sf.numChannels := rfl

theorem getPattern_patternsInsert (sf : PatSoundFile) (p rows : Nat) :
    getPattern (patternsInsert sf p rows) p =
      some ⟨rows, List.replicate (rows * sf.numChannels) 0⟩ := by
  unfold patternsInsert getPattern
  dsimp only
  by_cases h : sf.patterns.length ≤ p
  · rw [if_pos h]
    apply getD_set_self
    simp
    omega
  · rw [if_neg h]
    apply getD_set_self
    omega

theorem getPattern_setPattern (sf : PatSoundFile) (p : Nat) (pat : CPattern)
    (h : p < sf.patterns.length) : getPattern (setPattern sf p pat) p = some pat := by
  unfold setPattern getPattern
  exact getD_set_self sf.patterns p (some pat) none h

theorem writeSeq_length (src : List Nat) : ∀ (dst : List Nat) (start : Nat),
    (writeSeq dst start src).length = dst.length := by
  induction src with
  | nil => intro dst start; rfl
  | cons b rest ih =>
    intro dst start
    unfold writeSeq
    rw [ih]
    simp

theorem writeSeq_getD_outside (src : List Nat) : ∀ (dst : List Nat) (start j : Nat) (d : Nat),
    (j < start ∨ start + src.length ≤ j) →
    (writeSeq dst start src).getD j d = dst.getD j d := by
  induction src with
  | nil => intro dst start j d _; rfl
  | cons b rest ih =>
    intro dst start j d h
    unfold writeSeq
    rw [ih (dst.set start b) (start + 1) j d (by simp at h; omega)]
    unfold List.getD
    rw [List.get?_set_ne]
    simp at h
    omega

theorem writeCells_length (numRows : Nat) (C : Nat) (cells : List ModCommand)
    (firstRow firstChn numChns : Nat) (content : List ModCommand) :
    (writeCells C cells firstRow firstChn numChns content numRows).length = cells.length := by
  induction numRows generalizing cells with
  | zero => rfl
  | succ n ih =>
    unfold writeCells
    rw [List.range_succ, List.foldl_append]
    simp only [List.foldl]
    rw [writeSeq_length]
    exact ih cells

theorem writeCells_getD_outside (numRows : Nat) (C : Nat) (cells : List ModCommand)
    (firstRow firstChn numChns : Nat) (content : List ModCommand) (j d : Nat)
    (h : ∀ iy, iy < numRows → j < (firstRow + iy) * C + firstChn ∨
      (firstRow + iy) * C + firstChn + numChns ≤ j) :
    (writeCells C cells firstRow firstChn numChns content numRows).getD j d =
      cells.getD j d := by
  induction numRows generalizing cells with
  | zero => rfl
  | succ n ih =>
    unfold writeCells
    rw [List.range_succ, List.foldl_append]
    simp only [List.foldl]
    have hseg := h n (by omega)
    have hlen : ((content.drop (n * numChns)).take numChns).length ≤ numChns := by
      simp
    rw [writeSeq_getD_outside _ _ _ _ _ (by omega)]
    exact ih cells (fun iy hiy => h iy (by omega))

/-- One step of pattern Undo on a record with no stored channel info whose
rectangle fits the current channel count: the record is popped; a non-linked
record stops there, a linked record continues on the remaining stack with the
channel count unchanged. -/
theorem patternUndoGo_step_fromBuf (maxU : Nat) (sf : PatSoundFile) (undo : PatternUndoInfo)
    (rest toBuf : List PatternUndoInfo) (lfp : Bool)
    (hinfo : undo.channelInfo = [])
    (hfit : undo.firstChannel + undo.numChannels ≤ sf.numChannels) :
    (undo.linkToPrevious = false →
      (patternUndoGo maxU sf (undo :: rest) toBuf lfp).fromBuf = rest) ∧
    (undo.linkToPrevious = true →
      ∃ sf4 toBuf2, sf4.numChannels = sf.numChannels ∧
        (patternUndoGo maxU sf (undo :: rest) toBuf lfp).fromBuf =
          (patternUndoGo maxU sf4 rest toBuf2 true).fromBuf) := by
  have hie : undo.channelInfo.isEmpty = true := by simp [hinfo]
  simp only [patternUndoGo, hie, if_true]
  rw [if_pos hfit]
  by_cases hv : isValidPat sf undo.pattern = true
  · have hex : ∃ pat, getPattern sf undo.pattern = some pat := by
      unfold isValidPat at hv
      exact Option.isSome_iff_exists.mp hv
    obtain ⟨pat, hpat⟩ := hex
    simp only [hv, Bool.not_true, Bool.false_eq_true, if_false]
    rw [hpat]
    dsimp only
    by_cases hnr : pat.numRows ≠ undo.numPatternRows
    · rw [if_pos hnr]
      rw [getPattern_setPattern sf undo.pattern
        (resizePattern sf.numChannels pat undo.numPatternRows)
        (isValidPat_lt sf undo.pattern hv)]
      constructor
      · intro hlink
        simp only [hlink, Bool.false_eq_true, if_false]
      · intro hlink
        simp only [hlink, if_true]
        refine ⟨_, _, ?_, rfl⟩
        rfl
    · rw [if_neg hnr, hpat]
      constructor
      · intro hlink
        simp only [hlink, Bool.false_eq_true, if_false]
      · intro hlink
        simp only [hlink, if_true]
        refine ⟨_, _, ?_, rfl⟩
        rfl
  · have hvf : isValidPat sf undo.pattern = false := by
      revert hv
      cases isValidPat sf undo.pattern
      · intro _; rfl
      · intro hv; exact absurd rfl hv
    simp only [hvf, Bool.not_false, if_true]
    rw [getPattern_patternsInsert sf undo.pattern undo.numPatternRows]
    constructor
    · intro hlink
      simp only [hlink, Bool.false_eq_true, if_false]
    · intro hlink
      simp only [hlink, if_true]
      refine ⟨_, _, ?_, rfl⟩
      rfl

/-- C3 (amended). A chain of N pattern records whose top N-1 records carry
linkToPrevious (the deepest record does not), each storing no channel info
and each fitting the document's current channel count, is fully unwound by a
single Undo call: the stack ends exactly N entries shorter. (Without the fit
proviso a record whose rectangle no longer fits stops the chain early.) -/
theorem c3_linked_chain_amended (maxU : Nat) :
    ∀ (chain : List PatternUndoInfo) (sf : PatSoundFile) (rest toBuf : List PatternUndoInfo)
      (lfp : Bool),
      chain ≠ [] →
      (∀ r, chain.getLast? = some r → r.linkToPrevious = false) →
      (∀ r ∈ chain.dropLast, r.linkToPrevious = true) →
      (∀ r ∈ chain, r.channelInfo = [] ∧ r.firstChannel + r.numChannels ≤ sf.numChannels) →
      (patternUndoGo maxU sf (chain ++ rest) toBuf lfp).fromBuf = rest := by
  intro chain
  induction chain with
  | nil =>
    intro sf rest toBuf lfp hne _ _ _
    exact absurd rfl hne
  | cons undo chainRest ih =>
    intro sf rest toBuf lfp _ hlast hmid hall
    have hinfo := (hall undo (by simp)).1
    have hfitu := (hall undo (by simp)).2
    have step := patternUndoGo_step_fromBuf maxU sf undo (chainRest ++ rest) toBuf lfp
      hinfo hfitu
    cases chainRest with
    | nil =>
      have hlink : undo.linkToPrevious = false := hlast undo (by simp)
      simpa using step.1 hlink
    | cons r2 rrest =>
      have hlink : undo.linkToPrevious = true := by
        apply hmid
        rw [List.dropLast_cons₂]
        simp
      obtain ⟨sf4, toBuf2, hnum, heq⟩ := step.2 hlink
      have goalstep : (patternUndoGo maxU sf ((undo :: r2 :: rrest) ++ rest) toBuf lfp).fromBuf =
          (patternUndoGo maxU sf4 ((r2 :: rrest) ++ rest) toBuf2 true).fromBuf := by
        simpa using heq
      rw [goalstep]
      apply ih sf4 rest toBuf2 true (by simp)
      · intro r hr
        apply hlast
        rw [List.getLast?_cons_cons]
        exact hr
      · intro r hr
        apply hmid
        rw [List.dropLast_cons₂]
        exact List.mem_cons_of_mem undo hr
      · intro r hr
        have h2 := hall r (List.mem_cons_of_mem undo hr)
        exact ⟨h2.1, by rw [hnum]; exact h2.2⟩

/-- Counterexample to C3 as stated: a 2-record chain whose top (linked)
record is 5 channels wide on a 2-channel document. One Undo call pops only
that record — its link flag is ignored because its rectangle no longer fits —
leaving the stack 1 entry shorter, not 2. -/
theorem c3_counterexample :
    (patternUndo 100 sfPat2
      [⟨0, 4, 1, 0, 5, 2, [9, 9], [], true, "m"⟩,
       ⟨0, 4, 0, 0, 1, 1, [1], [], false, "b"⟩] []).fromBuf.length = 1 ∧ (1 : Nat) ≠ 0 :=
  ⟨by rfl, by decide⟩

/-- Witness for C3 (amended): a fitting 2-record chain (top linked, bottom
not) is fully unwound by one call, leaving the stack empty. -/
theorem c3_witness :
    (patternUndoGo 100 sfPat2
      ([⟨0, 4, 0, 2, 2, 2, [5, 6, 7, 8], [], true, "t"⟩,
        ⟨0, 4, 0, 0, 2, 2, [1, 2, 3, 4], [], false, "b"⟩] ++ []) [] false).fromBuf = [] := by
  apply c3_linked_chain_amended 100
    [⟨0, 4, 0, 2, 2, 2, [5, 6, 7, 8], [], true, "t"⟩,
      ⟨0, 4, 0, 0, 2, 2, [1, 2, 3, 4], [], false, "b"⟩] sfPat2 [] [] false
  · intro h
    exact absurd h (by simp)
  · intro r hr
    have h3 : (([⟨0, 4, 0, 2, 2, 2, [5, 6, 7, 8], [], true, "t"⟩,
        ⟨0, 4, 0, 0, 2, 2, [1, 2, 3, 4], [], false, "b"⟩] :
        List PatternUndoInfo)).getLast? =
        some ⟨0, 4, 0, 0, 2, 2, [1, 2, 3, 4], [], false, "b"⟩ := rfl
    rw [h3] at hr
    injection hr with h4
    rw [← h4]
  · intro r hr
    simp at hr
    subst hr
    rfl
  · intro r hr
    simp at hr
    rcases hr with h | h
    · subst h
      exact ⟨rfl, by decide⟩
    · subst h
      exact ⟨rfl, by decide⟩

theorem setPattern_patterns_length (sf : PatSoundFile) (p : Nat) (pat : CPattern) :
    (setPattern sf p pat).patterns.length = sf.patterns.length := by
  simp [setPattern]

theorem resizePattern_numRows (C : Nat) (pat : CPattern) (n : Nat) :
    (resizePattern C pat n).numRows = n := rfl

/-- C7. Undoing a record captured without channel info, after the live
pattern was resized to fewer rows than firstRow + numRows, resizes the
pattern back to its recorded row count and then copies only cells inside the
rectangle clipped to min(recorded rows, current rows): every cell outside
that rectangle, and every position beyond the grid, is exactly as the resize
left it, and the grid size is unchanged by the copy. -/
theorem c7_pattern_undo_inbounds (maxU : Nat) (sf : PatSoundFile) (undo : PatternUndoInfo)
    (rest toBuf : List PatternUndoInfo) (lfp : Bool) (pat : CPattern)
    (hinfo : undo.channelInfo = [])
    (hlink : undo.linkToPrevious = false)
    (hfit : undo.firstChannel + undo.numChannels ≤ sf.numChannels)
    (hpat : getPattern sf undo.pattern = some pat)
    (_hshr : pat.numRows < undo.firstRow + undo.numRows)
    (hwf : undo.firstRow + undo.numRows ≤ undo.numPatternRows)
    (hneq : pat.numRows ≠ undo.numPatternRows) :
    (patternUndoGo maxU sf (undo :: rest) toBuf lfp).fromBuf = rest ∧
    ∃ pat2, getPattern (patternUndoGo maxU sf (undo :: rest) toBuf lfp).sf undo.pattern
        = some pat2 ∧
      pat2.numRows = undo.numPatternRows ∧
      pat2.cells.length =
        (resizePattern sf.numChannels pat undo.numPatternRows).cells.length ∧
      (∀ r c, r < undo.numPatternRows → c < sf.numChannels →
        (r < undo.firstRow ∨ undo.firstRow + min undo.numRows undo.numPatternRows ≤ r ∨
          c < undo.firstChannel ∨ undo.firstChannel + undo.numChannels ≤ c) →
        pat2.cells.getD (r * sf.numChannels + c) 0 =
          (resizePattern sf.numChannels pat undo.numPatternRows).cells.getD
            (r * sf.numChannels + c) 0) ∧
      (∀ j, undo.numPatternRows * sf.numChannels ≤ j →
        pat2.cells.getD j 0 =
          (resizePattern sf.numChannels pat undo.numPatternRows).cells.getD j 0) := by
  have hie : undo.channelInfo.isEmpty = true := by simp [hinfo]
  have hv : isValidPat sf undo.pattern = true := by
    unfold isValidPat
    rw [hpat]
    rfl
  simp only [patternUndoGo, hie, if_true]
  rw [if_pos hfit]
  simp only [hv, Bool.not_true, Bool.false_eq_true, if_false]
  rw [hpat]
  dsimp only
  rw [if_pos hneq]
  rw [getPattern_setPattern sf undo.pattern
    (resizePattern sf.numChannels pat undo.numPatternRows)
    (isValidPat_lt sf undo.pattern hv)]
  simp only [hlink, Bool.false_eq_true, if_false]
  simp only [setPattern_numChannels, resizePattern_numRows]
  refine ⟨trivial,
    ⟨undo.numPatternRows,
      writeCells sf.numChannels
        (resizePattern sf.numChannels pat undo.numPatternRows).cells undo.firstRow
        undo.firstChannel undo.numChannels undo.content
        (undo.numRows ⊓ undo.numPatternRows)⟩,
    ?_, ?_, ?_, ?_, ?_⟩
  · exact getPattern_setPattern _ undo.pattern _
      (by rw [setPattern_patterns_length]; exact isValidPat_lt sf undo.pattern hv)
  · rfl
  · exact writeCells_length _ _ _ _ _ _ _
  · intro r c hr hc houts
    apply writeCells_getD_outside
    intro iy hiy
    rcases Nat.lt_trichotomy r (undo.firstRow + iy) with hlt | heq | hgt
    · left
      have h1 : (r + 1) * sf.numChannels ≤ (undo.firstRow + iy) * sf.numChannels :=
        Nat.mul_le_mul_right sf.numChannels (by omega)
      have e1 : (r + 1) * sf.numChannels = r * sf.numChannels + sf.numChannels :=
        Nat.succ_mul r sf.numChannels
      omega
    · rcases houts with h | h | h | h
      · omega
      · omega
      · left
        rw [← heq]
        omega
      · right
        rw [← heq]
        omega
    · right
      have h1 : (undo.firstRow + iy + 1) * sf.numChannels ≤ r * sf.numChannels :=
        Nat.mul_le_mul_right sf.numChannels (by omega)
      have e1 : (undo.firstRow + iy + 1) * sf.numChannels =
          (undo.firstRow + iy) * sf.numChannels + sf.numChannels :=
        Nat.succ_mul (undo.firstRow + iy) sf.numChannels
      omega
  · intro j hj
    apply writeCells_getD_outside
    intro iy hiy
    right
    have h1 : (undo.firstRow + iy + 1) * sf.numChannels ≤
        undo.numPatternRows * sf.numChannels :=
      Nat.mul_le_mul_right sf.numChannels (by omega)
    have e1 : (undo.firstRow + iy + 1) * sf.numChannels =
        (undo.firstRow + iy) * sf.numChannels + sf.numChannels :=
      Nat.succ_mul (undo.firstRow + iy) sf.numChannels
    omega

/-- Witness for C7: a record of 4 rows at row 2 with recorded pattern height
8, undone over the pattern shrunk to 4 rows, restores an 8-row pattern and
leaves every cell outside the 4x1 rectangle at (2,1) exactly as the resize
produced it. -/
theorem c7_witness :
    (patternUndoGo 100 sfPat2 [⟨0, 8, 1, 2, 1, 4, [11, 12, 13, 14], [], false, "w"⟩]
      [] false).fromBuf = [] ∧
    ∃ pat2,
      getPattern (patternUndoGo 100 sfPat2
        [⟨0, 8, 1, 2, 1, 4, [11, 12, 13, 14], [], false, "w"⟩] [] false).sf 0 = some pat2 ∧
      pat2.numRows = 8 ∧
      pat2.cells.length =
        (resizePattern 2 ⟨4, [1, 2, 3, 4, 5, 6, 7, 8]⟩ 8).cells.length ∧
      (∀ r c, r < 8 → c < 2 → (r < 2 ∨ 2 + min 4 8 ≤ r ∨ c < 1 ∨ 1 + 1 ≤ c) →
        pat2.cells.getD (r * 2 + c) 0 =
          (resizePattern 2 ⟨4, [1, 2, 3, 4, 5, 6, 7, 8]⟩ 8).cells.getD (r * 2 + c) 0) ∧
      (∀ j, 8 * 2 ≤ j →
        pat2.cells.getD j 0 =
          (resizePattern 2 ⟨4, [1, 2, 3, 4, 5, 6, 7, 8]⟩ 8).cells.getD j 0) :=
  c7_pattern_undo_inbounds 100 sfPat2 ⟨0, 8, 1, 2, 1, 4, [11, 12, 13, 14], [], false, "w"⟩
    [] [] false ⟨4, [1, 2, 3, 4, 5, 6, 7, 8]⟩ (by rfl) (by rfl) (by decide) (by rfl)
    (by decide) (by decide) (by decide)
